import Mathlib

/-!
Verification of the kitties runtime modules (lesson-4 and lesson-5).

The development shallowly embeds the two Rust modules:
  - lesson-5: intrusive doubly linked ownership list (`OwnedKitties::append`,
    `OwnedKitties::remove`), `combine_dna`, `next_kitty_id`, `insert_kitty`,
    `do_breed`, `do_transfer`, `do_buy_kitty`, `do_set_price`;
  - lesson-4: dense per-owner array with swap-with-last-slot removal
    (`insert_kitty`, `do_breed`, `do_transfer`).

Machine integers are embedded as `Nat`: the generic bounded index type
`T::KittyIndex` becomes `Nat` together with an explicit bound parameter
`maxK` playing the role of `Bounded::max_value()`; `u8` bytes become `Nat`
values below 256, with the `u8` complement written as `255 ^^^ s`.
Storage maps become Lean functions into `Option`; `insert`, `remove` and
`take` become pointwise functional updates.  Fallible Rust functions
returning `Result` become `Except KErr`.  Randomness (`random_value`) is an
external input in the original system, so the random 16-byte values are
taken as explicit parameters of the operations.
-/

abbrev Account := Nat
abbrev KittyId := Nat

/-- 16-byte genome, one `Nat < 256` per byte position. -/
abbrev Genome := Fin 16 → Nat

/-- `KittyLinkedItem<T>`: one node of the intrusive doubly linked list. -/
structure LinkItem where
  prev : Option KittyId
  next : Option KittyId
deriving DecidableEq, Repr

/-- One account's slice of the `OwnedKitties` storage map: the key `none`
is the sentinel, `some id` the node of kitty `id`. -/
abbrev ChainMap := Option KittyId → Option LinkItem

def emptyChain : ChainMap := fun _ => none

/-- `OwnedKitties::read`: `get(..).unwrap_or_else(|| KittyLinkedItem { prev: None, next: None })`. -/
def readChain (m : ChainMap) (k : Option KittyId) : LinkItem :=
  (m k).getD ⟨none, none⟩

/-- `OwnedKitties::write`: storage `insert` at one key. -/
def writeChain (m : ChainMap) (k : Option KittyId) (v : LinkItem) : ChainMap :=
  fun k1 => if k1 = k then some v else m k1

/-- storage `take`/`remove` at one key. -/
def eraseChain (m : ChainMap) (k : Option KittyId) : ChainMap :=
  fun k1 => if k1 = k then none else m k1

/-- `OwnedKitties::append` (lesson-5, lines 108-129), restricted to the one
account it touches.  Follows the source order exactly: write the new head
(sentinel), then re-read and relink the previous tail, then write the new
node. -/
def OwnedKitties.append (m : ChainMap) (kitty_id : KittyId) : ChainMap :=
  let head := readChain m none
  let m1 := writeChain m none ⟨some kitty_id, head.next⟩
  let prev := readChain m1 head.prev
  let m2 := writeChain m1 head.prev ⟨prev.prev, some kitty_id⟩
  writeChain m2 (some kitty_id) ⟨head.prev, none⟩

/-- `OwnedKitties::remove` (lesson-5, lines 131-149): `take` the node, then
splice its neighbours, substituting the sentinel for a missing neighbour. -/
def OwnedKitties.remove (m : ChainMap) (kitty_id : KittyId) : ChainMap :=
  match m (some kitty_id) with
  | none => m
  | some item =>
    let m0 := eraseChain m (some kitty_id)
    let prev := readChain m0 item.prev
    let m1 := writeChain m0 item.prev ⟨prev.prev, item.next⟩
    let next := readChain m1 item.next
    writeChain m1 item.next ⟨item.prev, next.next⟩

/-- `combine_dna` (lesson-5, lines 152-154): `(selector & dna1) | (!selector & dna2)`
on `u8`; the `u8` complement of `s < 256` is `255 ^^^ s`. -/
def combine_dna (dna1 dna2 selector : Nat) : Nat :=
  (selector &&& dna1) ||| ((255 ^^^ selector) &&& dna2)

/-- `combine_dna` (lesson-4, lines 70-77): `(dna1 & selector) | (dna2 & !selector)`. -/
def combine_dna_l4 (dna1 dna2 selector : Nat) : Nat :=
  (dna1 &&& selector) ||| (dna2 &&& (255 ^^^ selector))

/-- The byte-wise loop of `do_breed`:
`for i in 0..16 { new_dna[i] = combine_dna(kitty1_dna[i], kitty2_dna[i], selector[i]) }`. -/
def combineGenome (g1 g2 sel : Genome) : Genome :=
  fun i => combine_dna (g1 i) (g2 i) (sel i)


/-- Error kinds, one per distinct error string of the two modules. -/
inductive KErr
  /-- "Kitties count overflow" -/
  | overflow
  /-- "This cat does not exist" -/
  | notExist
  /-- "Invalid kitty_id_1" -/
  | invalidParent1
  /-- "Invalid kitty_id_2" -/
  | invalidParent2
  /-- "Needs different parent" -/
  | sameParent
  /-- "No owner for this kitty" -/
  | noOwner
  /-- "Sender does not own this kitty" (lesson-5) / "You do not own this kitty" (lesson-4) -/
  | notOwner
  /-- "You can't buy your own cat" -/
  | buyOwn
  /-- "The cat you want to buy is not for sale" -/
  | notForSale
  /-- "The cat you want to buy costs more than your max price" -/
  | priceTooHigh
  /-- failure of the external `Currency::transfer` (InsufficientBalance) -/
  | insufficientBalance
  /-- the panic branch of the `.expect(..)` in `do_buy_kitty` -/
  | expectFailed
  /-- "You do not own this cat" (`do_set_price`) -/
  | doNotOwn
  /-- "Transfer causes underflow of 'from' kitty" (lesson-4) -/
  | underflowFrom
  /-- "Transfer causes overflow of 'to' kitty" (lesson-4) -/
  | overflowTo
deriving DecidableEq, Repr

/-- The error, if any, of a fallible operation. -/
def errOf {α : Type} : Except KErr α → Option KErr
  | .error e => some e
  | .ok _ => none

namespace L5

/-- `Kitty<Balance>` of lesson-5: genome plus sale price (`0` = not for sale). -/
structure Kitty where
  dna : Genome
  price : Nat

/-- The lesson-5 module storage: `Kitties`, `KittyOwner`, `KittiesCount`,
`OwnedKitties` (curried per account), plus the external balances map used
by the currency collaborator. -/
structure State where
  kitties : KittyId → Option Kitty
  kittyOwner : KittyId → Option Account
  kittiesCount : Nat
  owned : Account → ChainMap
  balances : Account → Nat

def init : State where
  kitties := fun _ => none
  kittyOwner := fun _ => none
  kittiesCount := 0
  owned := fun _ => emptyChain
  balances := fun _ => 0

/-- `OwnedKitties::append` lifted to the full storage: only the keys of the
given account are touched. -/
def ownedAppend (o : Account → ChainMap) (account : Account) (kitty_id : KittyId) :
    Account → ChainMap :=
  fun a => if a = account then OwnedKitties.append (o a) kitty_id else o a

/-- `OwnedKitties::remove` lifted to the full storage. -/
def ownedRemove (o : Account → ChainMap) (account : Account) (kitty_id : KittyId) :
    Account → ChainMap :=
  fun a => if a = account then OwnedKitties.remove (o a) kitty_id else o a

variable (maxK : Nat)

/-- `next_kitty_id` (lesson-5, lines 162-168); `maxK` is `T::KittyIndex::max_value()`. -/
def next_kitty_id (s : State) : Except KErr KittyId :=
  if s.kittiesCount = maxK then .error .overflow else .ok s.kittiesCount

/-- `insert_owned_kitty` (lesson-5, lines 170-178). -/
def insert_owned_kitty (owner : Account) (kitty_id : KittyId) (s : State) :
    Except KErr State :=
  if (s.kitties kitty_id).isSome then
    .ok { s with
          kittyOwner := fun k => if k = kitty_id then some owner else s.kittyOwner k,
          owned := ownedAppend s.owned owner kitty_id }
  else .error .notExist

/-- `insert_kitty` (lesson-5, lines 180-186). -/
def insert_kitty (owner : Account) (kitty_id : KittyId) (kitty : Kitty) (s : State) :
    Except KErr State :=
  insert_owned_kitty owner kitty_id
    { s with kitties := fun k => if k = kitty_id then some kitty else s.kitties k,
             kittiesCount := kitty_id + 1 }

/-- The `create` dispatchable (lesson-5, lines 43-57); the random 128-bit
`dna` is an external input, passed explicitly. -/
def create (sender : Account) (dna : Genome) (s : State) : Except KErr State := do
  let kitty_id ← next_kitty_id maxK s
  insert_kitty sender kitty_id ⟨dna, 0⟩ s

/-- `do_breed` (lesson-5, lines 188-215); the random `selector` is an
external input, passed explicitly. -/
def do_breed (sender : Account) (kitty_id_1 kitty_id_2 : KittyId) (selector : Genome)
    (s : State) : Except KErr State :=
  match s.kitties kitty_id_1 with
  | none => .error .invalidParent1
  | some kitty1 =>
    match s.kitties kitty_id_2 with
    | none => .error .invalidParent2
    | some kitty2 =>
      if kitty_id_1 = kitty_id_2 then .error .sameParent
      else do
        let kitty_id ← next_kitty_id maxK s
        insert_kitty sender kitty_id ⟨combineGenome kitty1.dna kitty2.dna selector, 0⟩ s

/-- `do_transfer` (lesson-5, lines 217-225): owner check, then rewrite
`KittyOwner`, remove from the sender's chain, append to the recipient's. -/
def do_transfer (sender : Account) (toA : Account) (kitty_id : KittyId) (s : State) :
    Except KErr State :=
  match s.kittyOwner kitty_id with
  | none => .error .noOwner
  | some owner =>
    if owner = sender then
      .ok { s with
            kittyOwner := fun k => if k = kitty_id then some toA else s.kittyOwner k,
            owned := ownedAppend (ownedRemove s.owned sender kitty_id) toA kitty_id }
    else .error .notOwner

/-- Modelled from the spec: the external balance-transfer primitive
(`balances::Module` as `Currency`, not part of src/): atomic, fails with
`InsufficientBalance` leaving both balances untouched, otherwise moves
exactly `amount` from `src` to `dst`. -/
def currencyTransfer (src dst : Account) (amount : Nat) (b : Account → Nat) :
    Option (Account → Nat) :=
  if amount ≤ b src then
    some (fun a => if a = src then b src - amount else if a = dst then b dst + amount else b a)
  else none

/-- `do_buy_kitty` (lesson-5, lines 227-251).  The `ensure!(exists)` and the
later `.unwrap()` read the same `Kitties` entry, so both become one match.
The `.expect(..)` on the inner `do_transfer` becomes the distinguished
error `KErr.expectFailed`. -/
def do_buy_kitty (sender : Account) (kitty_id : KittyId) (max_price : Nat) (s : State) :
    Except KErr State :=
  match s.kitties kitty_id with
  | none => .error .notExist
  | some kitty =>
    match s.kittyOwner kitty_id with
    | none => .error .noOwner
    | some owner =>
      if owner = sender then .error .buyOwn
      else if kitty.price = 0 then .error .notForSale
      else if kitty.price ≤ max_price then
        match currencyTransfer sender owner kitty.price s.balances with
        | none => .error .insufficientBalance
        | some newBal =>
          match do_transfer owner sender kitty_id { s with balances := newBal } with
          | .error _ => .error .expectFailed
          | .ok s2 =>
            .ok { s2 with
                  kitties := fun k => if k = kitty_id then some ⟨kitty.dna, 0⟩ else s2.kitties k }
      else .error .priceTooHigh

/-- `do_set_price` (lesson-5, lines 253-264). -/
def do_set_price (sender : Account) (kitty_id : KittyId) (new_price : Nat) (s : State) :
    Except KErr State :=
  match s.kitties kitty_id with
  | none => .error .notExist
  | some kitty =>
    match s.kittyOwner kitty_id with
    | none => .error .noOwner
    | some owner =>
      if owner = sender then
        .ok { s with
              kitties := fun k => if k = kitty_id then some ⟨kitty.dna, new_price⟩
                                  else s.kitties k }
      else .error .doNotOwn

/-- The public operation alphabet of lesson-5, with the external random
values inlined into the operations. -/
inductive Op
  | createOp (sender : Account) (dna : Genome)
  | breedOp (sender : Account) (id1 id2 : KittyId) (selector : Genome)
  | transferOp (sender toA : Account) (id : KittyId)
  | buyOp (sender : Account) (id : KittyId) (max_price : Nat)
  | setPriceOp (sender : Account) (id : KittyId) (price : Nat)

def stepOp : Op → State → Except KErr State
  | .createOp sender dna => create maxK sender dna
  | .breedOp sender id1 id2 sel => fun s => do_breed maxK sender id1 id2 sel s
  | .transferOp sender toA id => do_transfer sender toA id
  | .buyOp sender id mp => do_buy_kitty sender id mp
  | .setPriceOp sender id p => do_set_price sender id p

/-- One operation against the store: an error aborts the whole operation
with no mutation (the host transactional scope discards writes). -/
def stepR (op : Op) (s : State) : State :=
  match stepOp maxK op s with
  | .ok s1 => s1
  | .error _ => s

def run (s : State) : List Op → State
  | [] => s
  | op :: ops => run (stepR maxK op s) ops

/-- The kitty ids issued by one operation: a successful `create` or
`breed` issues the `next_kitty_id` it drew, i.e. the current counter. -/
def issuedOf (op : Op) (s : State) : List KittyId :=
  match op, stepOp maxK op s with
  | .createOp _ _, .ok _ => [s.kittiesCount]
  | .breedOp _ _ _ _, .ok _ => [s.kittiesCount]
  | _, _ => []

/-- `run` together with the log of issued kitty ids. -/
def runIssued (s : State) : List Op → State × List KittyId
  | [] => (s, [])
  | op :: ops =>
    let rest := runIssued (stepR maxK op s) ops
    (rest.1, issuedOf maxK op s ++ rest.2)

end L5

namespace L4

/-- The lesson-4 module storage.  `OwnedKitties`, `OwnedKittiesCount` and
`OwnedKittiesIndex` are non-`Option` storage maps: a read of a missing key
yields the default `0`, so they are embedded as total functions, with
storage `remove` writing the default back. -/
structure State where
  kitties : KittyId → Option Genome
  kittiesCount : Nat
  ownedKitties : Account → Nat → KittyId
  ownedCount : Account → Nat
  kittyOwner : KittyId → Option Account
  ownedIndex : KittyId → Nat

def init : State where
  kitties := fun _ => none
  kittiesCount := 0
  ownedKitties := fun _ _ => 0
  ownedCount := fun _ => 0
  kittyOwner := fun _ => none
  ownedIndex := fun _ => 0

variable (maxK : Nat)

/-- `next_kitty_id` (lesson-4, lines 85-91). -/
def next_kitty_id (s : State) : Except KErr KittyId :=
  if s.kittiesCount = maxK then .error .overflow else .ok s.kittiesCount

/-- `insert_kitty` (lesson-4, lines 93-105); infallible. -/
def insert_kitty (owner : Account) (kitty_id : KittyId) (dna : Genome) (s : State) :
    State :=
  let user_kitties_id := s.ownedCount owner
  { s with
    kitties := fun k => if k = kitty_id then some dna else s.kitties k,
    kittiesCount := kitty_id + 1,
    ownedKitties := fun a i =>
      if a = owner ∧ i = user_kitties_id then kitty_id else s.ownedKitties a i,
    ownedCount := fun a => if a = owner then user_kitties_id + 1 else s.ownedCount a,
    ownedIndex := fun k => if k = kitty_id then user_kitties_id else s.ownedIndex k,
    kittyOwner := fun k => if k = kitty_id then some owner else s.kittyOwner k }

/-- The `create` dispatchable (lesson-4, lines 35-49). -/
def create (sender : Account) (dna : Genome) (s : State) : Except KErr State := do
  let kitty_id ← next_kitty_id maxK s
  .ok (insert_kitty sender kitty_id dna s)

/-- `do_breed` (lesson-4, lines 107-132). -/
def do_breed (sender : Account) (kitty_id_1 kitty_id_2 : KittyId) (selector : Genome)
    (s : State) : Except KErr State :=
  match s.kitties kitty_id_1 with
  | none => .error .invalidParent1
  | some kitty1_dna =>
    match s.kitties kitty_id_2 with
    | none => .error .invalidParent2
    | some kitty2_dna =>
      if kitty_id_1 = kitty_id_2 then .error .sameParent
      else do
        let kitty_id ← next_kitty_id maxK s
        .ok (insert_kitty sender kitty_id
              (combineGenome kitty1_dna kitty2_dna selector) s)

/-- `do_transfer` (lesson-4, lines 134-173): checked per-account counter
arithmetic, then the swap-with-last-slot removal.  Storage writes are
composed in source order, later writes shadowing earlier ones on equal
keys. -/
def do_transfer (sender toA : Account) (kitty_id : KittyId) (s : State) :
    Except KErr State :=
  let cf := s.ownedCount sender
  let ct := s.ownedCount toA
  if cf = 0 then .error .underflowFrom
  else
    let new_cf := cf - 1
    if maxK < ct + 1 then .error .overflowTo
    else
      let new_ct := ct + 1
      let kitty_index := s.ownedIndex kitty_id
      let last_kitty_id := s.ownedKitties sender new_cf
      let doSwap : Prop := ¬ (kitty_index = new_cf)
      .ok { s with
        ownedKitties := fun a i =>
          if a = toA ∧ i = ct then kitty_id
          else if a = sender ∧ i = new_cf then 0
          else if doSwap ∧ a = sender ∧ i = kitty_index then last_kitty_id
          else s.ownedKitties a i,
        ownedIndex := fun k =>
          if k = kitty_id then ct
          else if doSwap ∧ k = last_kitty_id then kitty_index
          else s.ownedIndex k,
        kittyOwner := fun k => if k = kitty_id then some toA else s.kittyOwner k,
        ownedCount := fun a =>
          if a = toA then new_ct else if a = sender then new_cf else s.ownedCount a }

/-- The `transfer` dispatchable (lesson-4, lines 59-66): ownership ensure,
then `do_transfer`. -/
def transfer (sender toA : Account) (kitty_id : KittyId) (s : State) :
    Except KErr State :=
  match s.kittyOwner kitty_id with
  | none => .error .noOwner
  | some owner =>
    if owner = sender then do_transfer maxK sender toA kitty_id s
    else .error .notOwner

end L4

/-- The operation alphabet shared by the two implementations
(create / breed / transfer), external random values inlined. -/
inductive GOp
  | createOp (sender : Account) (dna : Genome)
  | breedOp (sender : Account) (id1 id2 : KittyId) (selector : Genome)
  | transferOp (sender toA : Account) (id : KittyId)

def GOp.toOp5 : GOp → L5.Op
  | .createOp sender dna => .createOp sender dna
  | .breedOp sender id1 id2 sel => .breedOp sender id1 id2 sel
  | .transferOp sender toA id => .transferOp sender toA id

def L4.stepOp (maxK : Nat) : GOp → L4.State → Except KErr L4.State
  | .createOp sender dna => L4.create maxK sender dna
  | .breedOp sender id1 id2 sel => fun s => L4.do_breed maxK sender id1 id2 sel s
  | .transferOp sender toA id => L4.transfer maxK sender toA id

def L4.stepR (maxK : Nat) (op : GOp) (s : L4.State) : L4.State :=
  match L4.stepOp maxK op s with
  | .ok s1 => s1
  | .error _ => s

def L4.run (maxK : Nat) (s : L4.State) : List GOp → L4.State
  | [] => s
  | op :: ops => L4.run maxK (L4.stepR maxK op s) ops

/-- Run the lesson-5 module over the shared alphabet. -/
def L5.runG (maxK : Nat) (s : L5.State) (ops : List GOp) : L5.State :=
  L5.run maxK s (ops.map GOp.toOp5)

/-- `true` when no transfer in the list has equal sender and recipient. -/
def noSelfTransfer : List GOp → Bool
  | [] => true
  | .transferOp sender toA _ :: ops => sender ≠ toA && noSelfTransfer ops
  | _ :: ops => noSelfTransfer ops

/-! ### Chain abstraction: a lesson-5 ownership chain as a Lean list

`nextIn L y` is the element following the first occurrence of `y` in `L`
(`none` at the end), `prevIn` the element preceding it.  A `ChainMap`
represents the list `L` (oldest to newest) when the sentinel holds
`{prev = tail, next = head}` and every node holds its neighbours. -/

def nextIn : List KittyId → KittyId → Option KittyId
  | [], _ => none
  | a :: l, y => if y = a then l.head? else nextIn l y

def prevIn (L : List KittyId) (y : KittyId) : Option KittyId :=
  nextIn L.reverse y

/-- The map `m` is the storage image of the chain `L`. -/
structure ReprInv (m : ChainMap) (L : List KittyId) : Prop where
  nodup : L.Nodup
  keys : ∀ x, (m (some x)).isSome ↔ x ∈ L
  sentinel : readChain m none = ⟨L.getLast?, L.head?⟩
  nodes : ∀ x ∈ L, readChain m (some x) = ⟨prevIn L x, nextIn L x⟩

/-- Follow `next` pointers from key `k`, visiting at most `fuel` nodes. -/
def walkN (m : ChainMap) : Nat → Option KittyId → List KittyId
  | 0, _ => []
  | _ + 1, none => []
  | fuel + 1, some a => a :: walkN m fuel (readChain m (some a)).next

/-- Follow `prev` pointers from key `k`, visiting at most `fuel` nodes. -/
def walkP (m : ChainMap) : Nat → Option KittyId → List KittyId
  | 0, _ => []
  | _ + 1, none => []
  | fuel + 1, some a => a :: walkP m fuel (readChain m (some a)).prev

/-- The forward walk of the claim: start at the sentinel's `next`. -/
def forwardWalk (m : ChainMap) (fuel : Nat) : List KittyId :=
  walkN m fuel (readChain m none).next

/-- The backward walk of the claim: start at the sentinel's `prev`. -/
def backwardWalk (m : ChainMap) (fuel : Nat) : List KittyId :=
  walkP m fuel (readChain m none).prev

/-- Swap the `prev`/`next` fields of every node. -/
def mirrorChain (m : ChainMap) : ChainMap :=
  fun k => (m k).map (fun it => ⟨it.next, it.prev⟩)

/-- Direct calls on one account's chain, as in the module's unit tests. -/
inductive COp
  | app (id : KittyId)
  | rem (id : KittyId)

def runChain (m : ChainMap) : List COp → ChainMap
  | [] => m
  | .app x :: ops => runChain (OwnedKitties.append m x) ops
  | .rem x :: ops => runChain (OwnedKitties.remove m x) ops

/-- The abstract chain contents after a call sequence. -/
def absChain (L : List KittyId) : List COp → List KittyId
  | [] => L
  | .app x :: ops => absChain (L ++ [x]) ops
  | .rem x :: ops => absChain (L.erase x) ops

/-- Call-sequence validity: every appended id is fresh for the chain
(the contract lesson-5's callers maintain; removal needs no side
condition, a missing node makes `remove` a no-op). -/
def validCalls (L : List KittyId) : List COp → Bool
  | [] => true
  | .app x :: ops => !(L.contains x) && validCalls (L ++ [x]) ops
  | .rem x :: ops => validCalls (L.erase x) ops

/-- The well-formedness the claim asserts: some duplicate-free list is
visited by the forward walk, and the backward walk visits its reverse,
whenever enough fuel is supplied. -/
def chainWellFormed (m : ChainMap) : Prop :=
  ∃ L : List KittyId, L.Nodup ∧
    ∀ fuel, L.length ≤ fuel →
      forwardWalk m fuel = L ∧ backwardWalk m fuel = L.reverse

section ClaimC3

/-- Claim C3: for all bytes, `combine_dna dna1 dna2 selector` equals
`(selector AND dna1) OR (NOT selector AND dna2)` (also in the lesson-4
operand order), bit `i` of the result is bit `i` of `dna1` when selector
bit `i` is set and bit `i` of `dna2` otherwise, and on the concrete triple
`0b11110000, 0b11001100, 0b10101010` the result is `0b11100100`. -/
theorem combine_dna_spec (dna1 dna2 selector : Nat)
    (h1 : dna1 < 256) (h2 : dna2 < 256) (hs : selector < 256) :
    combine_dna dna1 dna2 selector
        = (selector &&& dna1) ||| ((255 ^^^ selector) &&& dna2)
    ∧ combine_dna dna1 dna2 selector = combine_dna_l4 dna1 dna2 selector
    ∧ (∀ i, (combine_dna dna1 dna2 selector).testBit i
          = if selector.testBit i then dna1.testBit i else dna2.testBit i)
    ∧ combine_dna 0b11110000 0b11001100 0b10101010 = 0b11100100 := by
  refine ⟨rfl, ?_, ?_, by decide⟩
  · unfold combine_dna combine_dna_l4
    rw [Nat.land_comm selector dna1, Nat.land_comm (255 ^^^ selector) dna2]
  · intro i
    by_cases hi : i < 8
    · have h255 : (255 : Nat).testBit i = true := by
        have : (255 : Nat) = 2 ^ 8 - 1 := by decide
        rw [this, Nat.testBit_two_pow_sub_one]
        simpa using hi
      rw [combine_dna, Nat.testBit_lor, Nat.testBit_land, Nat.testBit_land,
        Nat.testBit_xor, h255]
      cases hsel : selector.testBit i <;> cases hd1 : dna1.testBit i <;>
        cases hd2 : dna2.testBit i <;> simp
    · have hpow : (256 : Nat) ≤ 2 ^ i := by
        calc (256 : Nat) = 2 ^ 8 := by decide
        _ ≤ 2 ^ i := Nat.pow_le_pow_right (by decide) (by omega)
      have hsel : selector.testBit i = false :=
        Nat.testBit_lt_two_pow (by omega)
      have hd2 : dna2.testBit i = false :=
        Nat.testBit_lt_two_pow (by omega)
      have h255 : (255 : Nat).testBit i = false :=
        Nat.testBit_lt_two_pow (by omega)
      rw [combine_dna, Nat.testBit_lor, Nat.testBit_land, Nat.testBit_land,
        Nat.testBit_xor, hsel, h255, hd2]
      simp

/-- Concrete instantiation of `combine_dna_spec`. -/
theorem combine_dna_spec_witness :
    (0b11110000 : Nat) < 256 ∧ (0b11001100 : Nat) < 256 ∧ (0b10101010 : Nat) < 256 ∧
    combine_dna 0b11110000 0b11001100 0b10101010 = 0b11100100 :=
  ⟨by decide, by decide, by decide,
    (combine_dna_spec 0b11110000 0b11001100 0b10101010
      (by decide) (by decide) (by decide)).2.2.2⟩

end ClaimC3

section ClaimC8

/-- Claim C8: starting from an account with no stored ownership entries,
`append(A, x)` followed by `remove(A, x)` restores the sentinel entry of
`A` to `{prev: None, next: None}` (for every account `A` and id `x`). -/
theorem append_remove_restores_sentinel (A : Account) (x : KittyId) :
    readChain
      (L5.ownedRemove (L5.ownedAppend (fun _ => emptyChain) A x) A x A) none
      = ⟨none, none⟩ := by
  simp [L5.ownedRemove, L5.ownedAppend, OwnedKitties.append, OwnedKitties.remove,
    readChain, writeChain, eraseChain, emptyChain]

end ClaimC8

/-! ### Lemmas about chain successors -/

theorem nextIn_of_not_mem {L : List KittyId} {y : KittyId} (h : y ∉ L) :
    nextIn L y = none := by
  induction L with
  | nil => rfl
  | cons a l ih =>
    rw [nextIn]
    rw [List.mem_cons, not_or] at h
    rw [if_neg h.1]
    exact ih h.2

theorem nextIn_append_of_not_mem {L1 L2 : List KittyId} {y : KittyId} (h : y ∉ L1) :
    nextIn (L1 ++ L2) y = nextIn L2 y := by
  induction L1 with
  | nil => rfl
  | cons a l ih =>
    rw [List.mem_cons, not_or] at h
    rw [List.cons_append, nextIn, if_neg h.1]
    exact ih h.2

theorem nextIn_append_of_mem {L1 L2 : List KittyId} {y : KittyId} (h : y ∈ L1) :
    nextIn (L1 ++ L2) y = (nextIn L1 y).or L2.head? := by
  induction L1 with
  | nil => cases h
  | cons a l ih =>
    rw [List.cons_append, nextIn, nextIn]
    by_cases hy : y = a
    · rw [if_pos hy, if_pos hy, List.head?_append]
    · rw [if_neg hy, if_neg hy]
      exact ih (by rcases List.mem_cons.1 h with h1 | h1; exact absurd h1 hy; exact h1)

theorem nextIn_eq_none_iff {L : List KittyId} {y : KittyId}
    (hn : L.Nodup) (h : y ∈ L) : nextIn L y = none ↔ L.getLast? = some y := by
  induction L with
  | nil => cases h
  | cons a l ih =>
    rw [nextIn]
    by_cases hy : y = a
    · subst hy
      rw [if_pos rfl]
      cases l with
      | nil => simp
      | cons b t =>
        have hyl : y ∉ b :: t := (List.nodup_cons.1 hn).1
        constructor
        · intro hh; cases hh
        · intro hh
          exfalso
          exact hyl (List.mem_of_getLast?_eq_some (by rw [List.getLast?_cons_cons] at hh; exact hh))
    · rw [if_neg hy]
      have hyl : y ∈ l := by
        rcases List.mem_cons.1 h with h1 | h1; exact absurd h1 hy; exact h1
      have hlne : l ≠ [] := by intro hc; rw [hc] at hyl; cases hyl
      rw [ih (List.nodup_cons.1 hn).2 hyl]
      cases l with
      | nil => cases hyl
      | cons b t => rw [List.getLast?_cons_cons]

/-- An element of a duplicate-free list that is not the last has a
successor. -/
theorem nextIn_isSome_of_ne_last {L : List KittyId} {y : KittyId}
    (hn : L.Nodup) (h : y ∈ L) (hl : L.getLast? ≠ some y) :
    (nextIn L y).isSome = true := by
  rcases ho : nextIn L y with _ | z
  · exact absurd ((nextIn_eq_none_iff hn h).1 ho) hl
  · rfl

theorem readChain_mirror (m : ChainMap) (k : Option KittyId) :
    readChain (mirrorChain m) k = ⟨(readChain m k).next, (readChain m k).prev⟩ := by
  unfold readChain mirrorChain
  cases m k <;> rfl

theorem walkP_eq_walkN_mirror (m : ChainMap) :
    ∀ fuel k, walkP m fuel k = walkN (mirrorChain m) fuel k := by
  intro fuel
  induction fuel with
  | zero => intro k; rfl
  | succ f ih =>
    intro k
    cases k with
    | none => rfl
    | some a =>
      rw [walkP, walkN, readChain_mirror]
      exact congrArg (a :: ·) (ih _)

theorem ReprInv.mirror {m : ChainMap} {L : List KittyId} (h : ReprInv m L) :
    ReprInv (mirrorChain m) L.reverse := by
  constructor
  · exact List.nodup_reverse.2 h.nodup
  · intro x
    have hsame : (mirrorChain m (some x)).isSome = (m (some x)).isSome := by
      unfold mirrorChain
      cases m (some x) <;> rfl
    rw [hsame, List.mem_reverse]
    exact h.keys x
  · rw [readChain_mirror, h.sentinel, List.getLast?_reverse, List.head?_reverse]
  · intro x hx
    rw [List.mem_reverse] at hx
    rw [readChain_mirror, h.nodes x hx]
    have h1 : prevIn L.reverse x = nextIn L x := by rw [prevIn, List.reverse_reverse]
    have h2 : nextIn L.reverse x = prevIn L x := rfl
    rw [h1, h2]

theorem walkN_spec {m : ChainMap} {L : List KittyId} (h : ReprInv m L) :
    ∀ (L2 L1 : List KittyId) (fuel : Nat), L = L1 ++ L2 → L2.length ≤ fuel →
      walkN m fuel L2.head? = L2 := by
  intro L2
  induction L2 with
  | nil =>
    intro L1 fuel _ _
    cases fuel <;> rfl
  | cons a r ih =>
    intro L1 fuel hL hfuel
    cases fuel with
    | zero => simp at hfuel
    | succ f =>
      have ha : a ∈ L := by rw [hL]; exact List.mem_append_cons_self
      have hnotm : a ∉ L1 := by
        have := h.nodup
        rw [hL] at this
        have hd := (List.nodup_append.1 this).2.2
        intro hmem
        exact hd hmem (List.mem_cons_self a r)
      have hnext : (readChain m (some a)).next = r.head? := by
        rw [h.nodes a ha]
        show nextIn L a = r.head?
        rw [hL, nextIn_append_of_not_mem hnotm, nextIn, if_pos rfl]
      rw [List.head?_cons, walkN, hnext,
        ih (L1 ++ [a]) f (by rw [hL, List.append_assoc]; rfl) (by simpa using hfuel)]

theorem forwardWalk_of_repr {m : ChainMap} {L : List KittyId} {fuel : Nat}
    (h : ReprInv m L) (hf : L.length ≤ fuel) : forwardWalk m fuel = L := by
  rw [forwardWalk, h.sentinel]
  exact walkN_spec h L [] fuel rfl hf

theorem backwardWalk_of_repr {m : ChainMap} {L : List KittyId} {fuel : Nat}
    (h : ReprInv m L) (hf : L.length ≤ fuel) : backwardWalk m fuel = L.reverse := by
  rw [backwardWalk, h.sentinel, walkP_eq_walkN_mirror]
  have hs : L.getLast? = L.reverse.head? := (List.head?_reverse L).symm
  rw [show (⟨L.getLast?, L.head?⟩ : LinkItem).prev = L.reverse.head? from hs]
  exact walkN_spec h.mirror L.reverse [] fuel rfl (by simpa using hf)

/-! ### Storage read/write helpers and splice lemmas -/

theorem readChain_write_self (m : ChainMap) (k : Option KittyId) (v : LinkItem) :
    readChain (writeChain m k v) k = v := by
  unfold readChain writeChain
  rw [if_pos rfl]
  rfl

theorem readChain_write_ne (m : ChainMap) {k k1 : Option KittyId} (v : LinkItem)
    (h : k1 ≠ k) : readChain (writeChain m k v) k1 = readChain m k1 := by
  unfold readChain writeChain
  rw [if_neg h]

theorem readChain_erase_ne (m : ChainMap) {k k1 : Option KittyId}
    (h : k1 ≠ k) : readChain (eraseChain m k) k1 = readChain m k1 := by
  unfold readChain eraseChain
  rw [if_neg h]

/-- An element of `A` that is not `A`'s last keeps its successor when the
middle element `x` is dropped. -/
theorem nextIn_middle_of_mem_left {A B : List KittyId} {x y : KittyId}
    (hA : A.Nodup) (hy : y ∈ A) (hne : A.getLast? ≠ some y) :
    nextIn (A ++ x :: B) y = nextIn (A ++ B) y := by
  have hsome := nextIn_isSome_of_ne_last hA hy hne
  rw [nextIn_append_of_mem hy, nextIn_append_of_mem hy,
    Option.or_of_isSome hsome, Option.or_of_isSome hsome]

/-- The last element of `A` points at the middle element in `A ++ x :: B`
and at `B`'s head in `A ++ B`. -/
theorem nextIn_middle_last {A B : List KittyId} {x y : KittyId}
    (hA : A.Nodup) (hy : y ∈ A) (hl : A.getLast? = some y) :
    nextIn (A ++ x :: B) y = some x ∧ nextIn (A ++ B) y = B.head? := by
  have hnone : nextIn A y = none := (nextIn_eq_none_iff hA hy).2 hl
  rw [nextIn_append_of_mem hy, nextIn_append_of_mem hy, hnone]
  exact ⟨rfl, rfl⟩

/-- An element beyond the middle element keeps its successor. -/
theorem nextIn_middle_of_mem_right {A B : List KittyId} {x y : KittyId}
    (hyA : y ∉ A) (hyx : y ≠ x) :
    nextIn (A ++ x :: B) y = nextIn B y ∧ nextIn (A ++ B) y = nextIn B y := by
  rw [nextIn_append_of_not_mem hyA, nextIn_append_of_not_mem hyA, nextIn, if_neg hyx]
  exact ⟨rfl, rfl⟩

theorem prevIn_concat_of_ne {L : List KittyId} {x y : KittyId} (h : y ≠ x) :
    prevIn (L ++ [x]) y = prevIn L y := by
  unfold prevIn
  rw [List.reverse_append]
  have : ([x] : List KittyId).reverse = [x] := rfl
  rw [this, nextIn_append_of_not_mem (by simp [h])]

theorem prevIn_concat_self (L : List KittyId) (x : KittyId) :
    prevIn (L ++ [x]) x = L.getLast? := by
  unfold prevIn
  rw [List.reverse_append]
  have : ([x] : List KittyId).reverse = [x] := rfl
  rw [this]
  show nextIn (x :: L.reverse) x = L.getLast?
  rw [nextIn, if_pos rfl, List.head?_reverse]

theorem nextIn_concat_self {L : List KittyId} {x : KittyId} (hx : x ∉ L) :
    nextIn (L ++ [x]) x = none := by
  rw [nextIn_append_of_not_mem hx, nextIn, if_pos rfl]
  rfl

theorem nextIn_concat_last {L : List KittyId} {t x : KittyId}
    (hnd : L.Nodup) (ht : t ∈ L) (hl : L.getLast? = some t) :
    nextIn (L ++ [x]) t = some x :=
  (nextIn_middle_last hnd ht hl).1

theorem nextIn_concat_of_ne_last {L : List KittyId} {x y : KittyId}
    (hnd : L.Nodup) (hy : y ∈ L) (hne : L.getLast? ≠ some y) :
    nextIn (L ++ [x]) y = nextIn L y := by
  have h := nextIn_middle_of_mem_left (B := []) (x := x) hnd hy hne
  rw [List.append_nil] at h
  exact h

/-- `append` of a fresh id turns the storage image of `L` into the storage
image of `L ++ [x]`. -/
theorem repr_append {m : ChainMap} {L : List KittyId} {x : KittyId}
    (h : ReprInv m L) (hx : x ∉ L) :
    ReprInv (OwnedKitties.append m x) (L ++ [x]) := by
  rcases List.eq_nil_or_concat L with hL | ⟨l, t, hL⟩
  · subst hL
    have hsent : readChain m none = ⟨none, none⟩ := by
      rw [h.sentinel]
      rfl
    have happ : OwnedKitties.append m x =
        writeChain (writeChain (writeChain m none ⟨some x, none⟩) none ⟨some x, some x⟩)
          (some x) ⟨none, none⟩ := by
      simp only [OwnedKitties.append, hsent, readChain_write_self]
    constructor
    · simp
    · intro y
      rw [happ]
      simp only [writeChain]
      by_cases hyx : y = x
      · subst hyx
        simp
      · simp [hyx, h.keys y]
    · rw [happ, readChain_write_ne _ _ (by simp), readChain_write_self]
      rfl
    · intro y hy
      have hyx : y = x := by simpa using hy
      subst hyx
      rw [happ, readChain_write_self]
      have h1 : prevIn ([] ++ [y]) y = none := by simp [prevIn, nextIn]
      have h2 : nextIn ([] ++ [y]) y = none := by simp [nextIn]
      rw [h1, h2]
  · rw [List.concat_eq_append] at hL
    have hlast : L.getLast? = some t := by
      rw [hL]
      exact List.getLast?_concat l
    have hLne : L ≠ [] := by
      rw [hL]
      simp
    have htL : t ∈ L := List.mem_of_getLast?_eq_some hlast
    have htx : t ≠ x := fun hc => hx (hc ▸ htL)
    have hsent : readChain m none = ⟨some t, L.head?⟩ := by
      rw [h.sentinel, hlast]
    have hnode_t := h.nodes t htL
    have happ : OwnedKitties.append m x =
        writeChain (writeChain (writeChain m none ⟨some x, L.head?⟩)
          (some t) ⟨prevIn L t, some x⟩) (some x) ⟨some t, none⟩ := by
      simp only [OwnedKitties.append, hsent]
      rw [readChain_write_ne m _ (by simp)]
      simp only [hnode_t]
    constructor
    · have hsplit : L ++ [x] = L ++ x :: [] := rfl
      rw [hsplit, List.nodup_middle]
      exact List.nodup_cons.2 ⟨by simpa using hx, by simpa using h.nodup⟩
    · intro y
      rw [happ]
      simp only [writeChain]
      by_cases hyx : y = x
      · subst hyx
        simp
      · by_cases hyt : y = t
        · subst hyt
          simp [htx, htL]
        · simp [hyx, hyt, h.keys y]
    · rw [happ, readChain_write_ne _ _ (by simp), readChain_write_ne _ _ (by simp),
        readChain_write_self, List.getLast?_concat,
        List.head?_append_of_ne_nil _ hLne]
    · intro y hy
      rcases (by simpa using hy : y ∈ L ∨ y = x) with hyL | hyx
      · by_cases hyt : y = t
        · subst hyt
          rw [happ, readChain_write_ne _ _ (by simp [htx]), readChain_write_self,
            prevIn_concat_of_ne htx, nextIn_concat_last h.nodup htL hlast]
        · have hyx : y ≠ x := fun hc => hx (hc ▸ hyL)
          rw [happ, readChain_write_ne _ _ (by simp [hyx]),
            readChain_write_ne _ _ (by simp [hyt]), readChain_write_ne _ _ (by simp),
            h.nodes y hyL, prevIn_concat_of_ne hyx,
            nextIn_concat_of_ne_last h.nodup hyL
              (by rw [hlast]; exact fun hc => hyt (Option.some_injective _ hc).symm)]
      · subst hyx
        rw [happ, readChain_write_self, prevIn_concat_self, hlast,
          nextIn_concat_self hx]

theorem reverse_middle (L1 L2 : List KittyId) (x : KittyId) :
    (L1 ++ x :: L2).reverse = L2.reverse ++ x :: L1.reverse := by
  rw [List.reverse_append, List.reverse_cons, List.append_assoc]
  rfl

theorem nextIn_middle_self {L1 L2 : List KittyId} {x : KittyId} (h1 : x ∉ L1) :
    nextIn (L1 ++ x :: L2) x = L2.head? := by
  rw [nextIn_append_of_not_mem h1, nextIn, if_pos rfl]

theorem prevIn_middle_self {L1 L2 : List KittyId} {x : KittyId} (h2 : x ∉ L2) :
    prevIn (L1 ++ x :: L2) x = L1.getLast? := by
  unfold prevIn
  rw [reverse_middle, nextIn_append_of_not_mem (by simpa using h2), nextIn,
    if_pos rfl, List.head?_reverse]

/-- Dropping the middle element does not change the predecessor of an
element on its left. -/
theorem prevIn_middle_of_mem_left {L1 L2 : List KittyId} {x y : KittyId}
    (h2 : y ∉ L2) (hyx : y ≠ x) :
    prevIn (L1 ++ x :: L2) y = prevIn (L1 ++ L2) y := by
  unfold prevIn
  rw [reverse_middle, List.reverse_append,
    nextIn_append_of_not_mem (by simpa using h2),
    nextIn_append_of_not_mem (by simpa using h2), nextIn, if_neg hyx]

/-- The head of the right part points back at the middle element before
the splice and at the left part's last element after it. -/
theorem prevIn_middle_head {L1 L2 : List KittyId} {x q : KittyId}
    (hnd2 : L2.Nodup) (hq : L2.head? = some q) :
    prevIn (L1 ++ x :: L2) q = some x ∧ prevIn (L1 ++ L2) q = L1.getLast? := by
  have hqmem : q ∈ L2.reverse := by
    rw [List.mem_reverse]
    exact List.mem_of_mem_head? (by rw [hq]; rfl)
  have hA : L2.reverse.Nodup := List.nodup_reverse.2 hnd2
  have hlastA : L2.reverse.getLast? = some q := by rw [List.getLast?_reverse, hq]
  have hm := nextIn_middle_last (B := L1.reverse) (x := x) hA hqmem hlastA
  constructor
  · rw [prevIn, reverse_middle]
    exact hm.1
  · rw [prevIn, List.reverse_append, hm.2, List.head?_reverse]

/-- Dropping the middle element does not change the predecessor of a
non-head element on its right. -/
theorem prevIn_middle_of_mem_right {L1 L2 : List KittyId} {x y : KittyId}
    (hnd2 : L2.Nodup) (hy : y ∈ L2) (hne : L2.head? ≠ some y) :
    prevIn (L1 ++ x :: L2) y = prevIn (L1 ++ L2) y := by
  have hA : L2.reverse.Nodup := List.nodup_reverse.2 hnd2
  have hymem : y ∈ L2.reverse := List.mem_reverse.2 hy
  have hlastA : L2.reverse.getLast? ≠ some y := by
    rw [List.getLast?_reverse]
    exact hne
  have hm := nextIn_middle_of_mem_left (B := L1.reverse) (x := x) hA hymem hlastA
  rw [prevIn, reverse_middle, hm, prevIn, List.reverse_append]

theorem repr_remove_singleton {m : ChainMap} {x : KittyId}
    (h : ReprInv m [x]) : ReprInv (OwnedKitties.remove m x) [] := by
  have hxL : x ∈ [x] := List.mem_singleton.2 rfl
  have hsent : readChain m none = ⟨some x, some x⟩ := by
    rw [h.sentinel]
    rfl
  have hitem : m (some x) = some ⟨none, none⟩ := by
    have hs : (m (some x)).isSome := (h.keys x).2 hxL
    rcases Option.isSome_iff_exists.1 hs with ⟨v, hv⟩
    have hr : readChain m (some x) = v := by
      rw [readChain, hv]
      rfl
    have hn := h.nodes x hxL
    rw [hr] at hn
    rw [hv, hn]
    have hp : prevIn [x] x = none := by simp [prevIn, nextIn]
    have hq : nextIn [x] x = none := by simp [nextIn]
    rw [hp, hq]
  have hr0 : readChain (eraseChain m (some x)) none = ⟨some x, some x⟩ := by
    rw [readChain_erase_ne _ (by simp), hsent]
  have happ : OwnedKitties.remove m x =
      writeChain (writeChain (eraseChain m (some x)) none ⟨some x, none⟩)
        none ⟨none, none⟩ := by
    simp only [OwnedKitties.remove, hitem, hr0, readChain_write_self]
  constructor
  · exact List.nodup_nil
  · intro y
    rw [happ]
    simp only [writeChain, eraseChain]
    by_cases hyx : y = x
    · subst hyx
      simp
    · have hk := h.keys y
      simp only [List.mem_singleton] at hk
      simp [hyx, hk]
  · rw [happ, readChain_write_self]
    rfl
  · intro y hy
    cases hy

theorem repr_remove_head {m : ChainMap} {x q : KittyId} {L L2 : List KittyId}
    (h : ReprInv m L) (hL : L = x :: L2) (hq : L2.head? = some q) :
    ReprInv (OwnedKitties.remove m x) L2 := by
  have hxL : x ∈ L := by rw [hL]; exact List.mem_cons_self x L2
  have hnd2 : L2.Nodup ∧ x ∉ L2 := by
    have := h.nodup
    rw [hL, List.nodup_cons] at this
    exact ⟨this.2, this.1⟩
  have hL2nd := hnd2.1
  have hxL2 := hnd2.2
  have hL2ne : L2 ≠ [] := by
    intro hc
    rw [hc] at hq
    cases hq
  have hqL2 : q ∈ L2 := List.mem_of_mem_head? (by rw [hq]; rfl)
  have hqx : q ≠ x := fun hc => hxL2 (hc ▸ hqL2)
  have hitem : m (some x) = some ⟨none, some q⟩ := by
    have hs : (m (some x)).isSome := (h.keys x).2 hxL
    rcases Option.isSome_iff_exists.1 hs with ⟨v, hv⟩
    have hr : readChain m (some x) = v := by
      rw [readChain, hv]
      rfl
    have hn := h.nodes x hxL
    rw [hr] at hn
    have hp : prevIn L x = none := by
      rw [hL, show x :: L2 = [] ++ x :: L2 from rfl, prevIn_middle_self hxL2]
      rfl
    have hnx : nextIn L x = some q := by
      rw [hL, show x :: L2 = [] ++ x :: L2 from rfl, nextIn_middle_self (by simp), hq]
    rw [hv, hn, hp, hnx]
  have hsent : readChain m none = ⟨L.getLast?, some x⟩ := by
    rw [h.sentinel, hL, List.head?_cons]
  have hgl : L.getLast? = L2.getLast? := by
    rw [hL, show x :: L2 = [x] ++ L2 from rfl]
    exact List.getLast?_append_of_ne_nil [x] hL2ne
  have hr0 : readChain (eraseChain m (some x)) none = ⟨L.getLast?, some x⟩ := by
    rw [readChain_erase_ne _ (by simp), hsent]
  have hrq1 : readChain (writeChain (eraseChain m (some x)) none ⟨L.getLast?, some q⟩)
      (some q) = ⟨prevIn L q, nextIn L q⟩ := by
    rw [readChain_write_ne _ _ (by simp), readChain_erase_ne _ (by simp [hqx]),
      h.nodes q (by rw [hL]; exact List.mem_cons_of_mem x hqL2)]
  have happ : OwnedKitties.remove m x =
      writeChain (writeChain (eraseChain m (some x)) none ⟨L.getLast?, some q⟩)
        (some q) ⟨none, nextIn L q⟩ := by
    simp only [OwnedKitties.remove, hitem, hr0, hrq1]
  constructor
  · exact hL2nd
  · intro y
    rw [happ]
    simp only [writeChain, eraseChain]
    by_cases hyq : y = q
    · subst hyq
      simp [hqL2]
    · by_cases hyx : y = x
      · subst hyx
        simp [hyq, hxL2]
      · have hk := h.keys y
        rw [hL, List.mem_cons] at hk
        simp [hyq, hyx, hk]
  · rw [happ, readChain_write_ne _ _ (by simp), readChain_write_self, hgl, hq]
  · intro y hy
    by_cases hyq : y = q
    · subst hyq
      rw [happ, readChain_write_self]
      have hp2 : prevIn L2 y = none := by
        have := (@prevIn_middle_head [] L2 x y hL2nd hq).2
        rw [List.nil_append] at this
        rw [this]
        rfl
      have hn2 : nextIn L y = nextIn L2 y := by
        have := (nextIn_middle_of_mem_right (A := []) (B := L2) (x := x)
          (by simp) hqx).1
        rw [List.nil_append] at this
        rw [hL, this]
      rw [hp2, ← hn2]
    · have hyx : y ≠ x := fun hc => hxL2 (hc ▸ hy)
      have hyL : y ∈ L := by rw [hL]; exact List.mem_cons_of_mem x hy
      rw [happ, readChain_write_ne _ _ (by simp [hyq]),
        readChain_write_ne _ _ (by simp), readChain_erase_ne _ (by simp [hyx]),
        h.nodes y hyL]
      have hp2 : prevIn L y = prevIn L2 y := by
        have := @prevIn_middle_of_mem_right [] L2 x y hL2nd hy
          (by rw [hq]; exact fun hc => hyq (Option.some_injective _ hc).symm)
        rw [List.nil_append, List.nil_append] at this
        rw [hL, this]
      have hn2 : nextIn L y = nextIn L2 y := by
        have := (nextIn_middle_of_mem_right (A := []) (B := L2) (x := x)
          (by simp) hyx).1
        rw [List.nil_append] at this
        rw [hL, this]
      rw [hp2, hn2]

theorem repr_remove_last {m : ChainMap} {x p : KittyId} {L L1 : List KittyId}
    (h : ReprInv m L) (hL : L = L1 ++ [x]) (hp : L1.getLast? = some p) :
    ReprInv (OwnedKitties.remove m x) L1 := by
  have hxL : x ∈ L := by rw [hL]; exact List.mem_append_of_mem_right _ (by simp)
  have hndparts : L1.Nodup ∧ x ∉ L1 := by
    have := h.nodup
    rw [hL, List.nodup_append] at this
    exact ⟨this.1, fun hc => this.2.2 hc (by simp)⟩
  have hL1nd := hndparts.1
  have hxL1 := hndparts.2
  have hpL1 : p ∈ L1 := List.mem_of_getLast?_eq_some hp
  have hpx : p ≠ x := fun hc => hxL1 (hc ▸ hpL1)
  have hL1ne : L1 ≠ [] := fun hc => by rw [hc] at hp; cases hp
  have hitem : m (some x) = some ⟨some p, none⟩ := by
    have hs : (m (some x)).isSome := (h.keys x).2 hxL
    rcases Option.isSome_iff_exists.1 hs with ⟨v, hv⟩
    have hr : readChain m (some x) = v := by
      rw [readChain, hv]
      rfl
    have hn := h.nodes x hxL
    rw [hr] at hn
    have hpv : prevIn L x = some p := by
      rw [hL, show L1 ++ [x] = L1 ++ x :: [] from rfl, prevIn_middle_self (by simp), hp]
    have hnx : nextIn L x = none := by
      rw [hL, show L1 ++ [x] = L1 ++ x :: [] from rfl, nextIn_middle_self hxL1]
      rfl
    rw [hv, hn, hpv, hnx]
  have hsent : readChain m none = ⟨some x, L.head?⟩ := by
    rw [h.sentinel, hL, List.getLast?_concat]
  have hrp : readChain (eraseChain m (some x)) (some p) =
      ⟨prevIn L p, nextIn L p⟩ := by
    rw [readChain_erase_ne _ (by simp [hpx]),
      h.nodes p (by rw [hL]; exact List.mem_append_of_mem_left _ hpL1)]
  have hr1 : readChain (writeChain (eraseChain m (some x)) (some p)
      ⟨prevIn L p, none⟩) none = ⟨some x, L.head?⟩ := by
    rw [readChain_write_ne _ _ (by simp), readChain_erase_ne _ (by simp), hsent]
  have happ : OwnedKitties.remove m x =
      writeChain (writeChain (eraseChain m (some x)) (some p) ⟨prevIn L p, none⟩)
        none ⟨some p, L.head?⟩ := by
    simp only [OwnedKitties.remove, hitem, hrp, hr1]
  constructor
  · exact hL1nd
  · intro y
    rw [happ]
    simp only [writeChain, eraseChain]
    by_cases hyp : y = p
    · subst hyp
      simp [hpL1]
    · by_cases hyx : y = x
      · subst hyx
        simp [hyp, hxL1]
      · have hk := h.keys y
        rw [hL, List.mem_append] at hk
        simp [hyp, hyx, hk]
  · rw [happ, readChain_write_self, hL, List.head?_append_of_ne_nil _ hL1ne, hp]
  · intro y hy
    by_cases hyp : y = p
    · subst hyp
      rw [happ, readChain_write_ne _ _ (by simp), readChain_write_self]
      have hp2 : prevIn L y = prevIn L1 y := by
        have := @prevIn_middle_of_mem_left L1 [] x y (by simp) hpx
        rw [List.append_nil] at this
        rw [hL, show L1 ++ [x] = L1 ++ x :: [] from rfl, this]
      have hn2 : nextIn L1 y = none := (nextIn_eq_none_iff hL1nd hy).2 hp
      rw [hp2, hn2]
    · have hyx : y ≠ x := fun hc => hxL1 (hc ▸ hy)
      have hyL : y ∈ L := by rw [hL]; exact List.mem_append_of_mem_left _ hy
      rw [happ, readChain_write_ne _ _ (by simp),
        readChain_write_ne _ _ (by simp [hyp]), readChain_erase_ne _ (by simp [hyx]),
        h.nodes y hyL]
      have hp2 : prevIn L y = prevIn L1 y := by
        have := @prevIn_middle_of_mem_left L1 [] x y (by simp) hyx
        rw [List.append_nil] at this
        rw [hL, show L1 ++ [x] = L1 ++ x :: [] from rfl, this]
      have hn2 : nextIn L y = nextIn L1 y := by
        have := nextIn_middle_of_mem_left (B := []) (x := x) hL1nd hy
          (by rw [hp]; exact fun hc => hyp (Option.some_injective _ hc).symm)
        rw [List.append_nil] at this
        rw [hL, show L1 ++ [x] = L1 ++ x :: [] from rfl, this]
      rw [hp2, hn2]

theorem repr_remove_middle {m : ChainMap} {x p q : KittyId} {L L1 L2 : List KittyId}
    (h : ReprInv m L) (hL : L = L1 ++ x :: L2)
    (hp : L1.getLast? = some p) (hq : L2.head? = some q) :
    ReprInv (OwnedKitties.remove m x) (L1 ++ L2) := by
  have hxL : x ∈ L := by rw [hL]; exact List.mem_append_cons_self
  have hmid : (x :: (L1 ++ L2)).Nodup := by
    have := h.nodup
    rw [hL] at this
    exact List.nodup_middle.1 this
  have hxT : x ∉ L1 ++ L2 := (List.nodup_cons.1 hmid).1
  have hTnd : (L1 ++ L2).Nodup := (List.nodup_cons.1 hmid).2
  have hxL1 : x ∉ L1 := fun hc => hxT (List.mem_append_of_mem_left _ hc)
  have hxL2 : x ∉ L2 := fun hc => hxT (List.mem_append_of_mem_right _ hc)
  have hL1nd : L1.Nodup := (List.nodup_append.1 hTnd).1
  have hL2nd : L2.Nodup := (List.nodup_append.1 hTnd).2.1
  have hdisj : L1.Disjoint L2 := (List.nodup_append.1 hTnd).2.2
  have hpL1 : p ∈ L1 := List.mem_of_getLast?_eq_some hp
  have hqL2 : q ∈ L2 := List.mem_of_mem_head? (by rw [hq]; rfl)
  have hpx : p ≠ x := fun hc => hxL1 (hc ▸ hpL1)
  have hqx : q ≠ x := fun hc => hxL2 (hc ▸ hqL2)
  have hpq : p ≠ q := fun hc => hdisj hpL1 (hc ▸ hqL2)
  have hqL1 : q ∉ L1 := fun hc => hdisj hc hqL2
  have hpL2 : p ∉ L2 := fun hc => hdisj hpL1 hc
  have hL1ne : L1 ≠ [] := fun hc => by rw [hc] at hp; cases hp
  have hL2ne : L2 ≠ [] := fun hc => by rw [hc] at hq; cases hq
  have hitem : m (some x) = some ⟨some p, some q⟩ := by
    have hs : (m (some x)).isSome := (h.keys x).2 hxL
    rcases Option.isSome_iff_exists.1 hs with ⟨v, hv⟩
    have hr : readChain m (some x) = v := by
      rw [readChain, hv]
      rfl
    have hn := h.nodes x hxL
    rw [hr] at hn
    have hpv : prevIn L x = some p := by
      rw [hL, prevIn_middle_self hxL2, hp]
    have hnx : nextIn L x = some q := by
      rw [hL, nextIn_middle_self hxL1, hq]
    rw [hv, hn, hpv, hnx]
  have hrp : readChain (eraseChain m (some x)) (some p) =
      ⟨prevIn L p, nextIn L p⟩ := by
    rw [readChain_erase_ne _ (by simp [hpx]),
      h.nodes p (by rw [hL]; exact List.mem_append_of_mem_left _ hpL1)]
  have hrq : readChain (writeChain (eraseChain m (some x)) (some p)
      ⟨prevIn L p, some q⟩) (some q) = ⟨prevIn L q, nextIn L q⟩ := by
    rw [readChain_write_ne _ _ (by simp [Ne.symm hpq]),
      readChain_erase_ne _ (by simp [hqx]),
      h.nodes q (by rw [hL]; exact List.mem_append_of_mem_right _ (List.mem_cons_of_mem x hqL2))]
  have happ : OwnedKitties.remove m x =
      writeChain (writeChain (eraseChain m (some x)) (some p) ⟨prevIn L p, some q⟩)
        (some q) ⟨some p, nextIn L q⟩ := by
    simp only [OwnedKitties.remove, hitem, hrp, hrq]
  constructor
  · exact hTnd
  · intro y
    rw [happ]
    simp only [writeChain, eraseChain]
    by_cases hyq : y = q
    · subst hyq
      simp [List.mem_append, hqL2]
    · by_cases hyp : y = p
      · subst hyp
        simp [hyq, List.mem_append, hpL1]
      · by_cases hyx : y = x
        · subst hyx
          simp [hyq, hyp, hxL1, hxL2]
        · have hk := h.keys y
          rw [hL, List.mem_append, List.mem_cons] at hk
          simp only [hyx, false_or] at hk
          simp [hyq, hyp, hyx, hk, List.mem_append]
  · rw [happ, readChain_write_ne _ _ (by simp), readChain_write_ne _ _ (by simp),
      readChain_erase_ne _ (by simp), h.sentinel]
    have hgl : L.getLast? = (L1 ++ L2).getLast? := by
      rw [hL, List.getLast?_append_cons, List.getLast?_append_of_ne_nil _ hL2ne,
        show x :: L2 = [x] ++ L2 from rfl, List.getLast?_append_of_ne_nil _ hL2ne]
    have hhd : L.head? = (L1 ++ L2).head? := by
      rw [hL, List.head?_append_of_ne_nil _ hL1ne, List.head?_append_of_ne_nil _ hL1ne]
    rw [hgl, hhd]
  · intro y hy
    rcases List.mem_append.1 hy with hyL1 | hyL2
    · by_cases hyp : y = p
      · subst hyp
        rw [happ, readChain_write_ne _ _ (by simp [hpq]), readChain_write_self]
        have hp2 : prevIn L y = prevIn (L1 ++ L2) y := by
          rw [hL]
          exact prevIn_middle_of_mem_left hpL2 hpx
        have hn2 : nextIn (L1 ++ L2) y = some q := by
          rw [(nextIn_middle_last (x := x) hL1nd hpL1 hp).2, hq]
        rw [← hp2, hn2]
      · have hyq : y ≠ q := fun hc => hqL1 (hc ▸ hyL1)
        have hyx : y ≠ x := fun hc => hxL1 (hc ▸ hyL1)
        have hyL2 : y ∉ L2 := fun hc => hdisj hyL1 hc
        rw [happ, readChain_write_ne _ _ (by simp [hyq]),
          readChain_write_ne _ _ (by simp [hyp]), readChain_erase_ne _ (by simp [hyx]),
          h.nodes y (by rw [hL]; exact List.mem_append_of_mem_left _ hyL1)]
        have hp2 : prevIn L y = prevIn (L1 ++ L2) y := by
          rw [hL]
          exact prevIn_middle_of_mem_left hyL2 hyx
        have hn2 : nextIn L y = nextIn (L1 ++ L2) y := by
          rw [hL]
          exact nextIn_middle_of_mem_left hL1nd hyL1
            (by rw [hp]; exact fun hc => hyp (Option.some_injective _ hc).symm)
        rw [hp2, hn2]
    · by_cases hyq : y = q
      · subst hyq
        rw [happ, readChain_write_self]
        have hp2 : prevIn (L1 ++ L2) y = some p := by
          rw [(prevIn_middle_head (x := x) hL2nd hq).2, hp]
        have hn2 : nextIn L y = nextIn (L1 ++ L2) y := by
          have h1 := (nextIn_middle_of_mem_right (A := L1) (B := L2) (x := x)
            hqL1 hqx).1
          have h2 := (nextIn_middle_of_mem_right (A := L1) (B := L2) (x := x)
            hqL1 hqx).2
          rw [hL, h1, h2]
        rw [hp2, ← hn2]
      · have hyp : y ≠ p := fun hc => hpL2 (hc ▸ hyL2)
        have hyx : y ≠ x := fun hc => hxL2 (hc ▸ hyL2)
        have hyL1 : y ∉ L1 := fun hc => hdisj hc hyL2
        rw [happ, readChain_write_ne _ _ (by simp [hyq]),
          readChain_write_ne _ _ (by simp [hyp]), readChain_erase_ne _ (by simp [hyx]),
          h.nodes y (by rw [hL]; exact List.mem_append_of_mem_right _ (List.mem_cons_of_mem x hyL2))]
        have hp2 : prevIn L y = prevIn (L1 ++ L2) y := by
          rw [hL]
          exact prevIn_middle_of_mem_right hL2nd hyL2
            (by rw [hq]; exact fun hc => hyq (Option.some_injective _ hc).symm)
        have hn2 : nextIn L y = nextIn (L1 ++ L2) y := by
          have h1 := (nextIn_middle_of_mem_right (A := L1) (B := L2) (x := x)
            hyL1 hyx).1
          have h2 := (nextIn_middle_of_mem_right (A := L1) (B := L2) (x := x)
            hyL1 hyx).2
          rw [hL, h1, h2]
        rw [hp2, hn2]

/-- `remove` turns the storage image of `L` into the storage image of
`L.erase x` (no-op when `x` is not in the chain). -/
theorem repr_remove {m : ChainMap} {L : List KittyId} {x : KittyId}
    (h : ReprInv m L) : ReprInv (OwnedKitties.remove m x) (L.erase x) := by
  by_cases hxL : x ∈ L
  · rcases List.append_of_mem hxL with ⟨L1, L2, hL⟩
    have hxL1 : x ∉ L1 := by
      have hnd := h.nodup
      rw [hL] at hnd
      exact fun hc => (List.nodup_cons.1 (List.nodup_middle.1 hnd)).1
        (List.mem_append_of_mem_left _ hc)
    have herase : L.erase x = L1 ++ L2 := by
      rw [hL, List.erase_append_right _ hxL1, List.erase_cons_head]
    rw [herase]
    rcases hL1s : L1.getLast? with _ | p
    · have hL1e : L1 = [] := List.getLast?_eq_none_iff.1 hL1s
      subst hL1e
      rw [List.nil_append] at hL
      rcases hL2s : L2.head? with _ | q
      · have hL2e : L2 = [] := List.head?_eq_none_iff.1 hL2s
        subst hL2e
        rw [hL] at h
        exact repr_remove_singleton h
      · exact repr_remove_head h hL hL2s
    · rcases hL2s : L2.head? with _ | q
      · have hL2e : L2 = [] := List.head?_eq_none_iff.1 hL2s
        subst hL2e
        rw [List.append_nil]
        exact repr_remove_last h hL hL1s
      · exact repr_remove_middle h hL hL1s hL2s
  · have hnone : m (some x) = none := by
      rcases ho : m (some x) with _ | v
      · rfl
      · exact absurd ((h.keys x).1 (by rw [ho]; rfl)) hxL
    have hrm : OwnedKitties.remove m x = m := by
      unfold OwnedKitties.remove
      rw [hnone]
    rw [hrm, List.erase_of_not_mem hxL]
    exact h

theorem repr_empty : ReprInv emptyChain [] := by
  constructor
  · exact List.nodup_nil
  · intro x
    simp [emptyChain]
  · rfl
  · intro y hy
    cases hy

theorem repr_runChain : ∀ (ops : List COp) (m : ChainMap) (L : List KittyId),
    ReprInv m L → validCalls L ops = true →
    ReprInv (runChain m ops) (absChain L ops) := by
  intro ops
  induction ops with
  | nil =>
    intro m L h _
    exact h
  | cons op rest ih =>
    intro m L h hv
    cases op with
    | app x =>
      rw [runChain, absChain]
      rw [validCalls, Bool.and_eq_true] at hv
      have hx : x ∉ L := by simpa using hv.1
      exact ih _ _ (repr_append h hx) hv.2
    | rem x =>
      rw [runChain, absChain]
      rw [validCalls] at hv
      exact ih _ _ (repr_remove h) hv

section ClaimC1

/-- Claim C1 (amended): after any sequence of `append`/`remove` calls on an
account's chain in which every appended id is fresh (not currently in the
chain), the forward walk from the sentinel's `next` and the backward walk
from the sentinel's `prev` visit the same duplicate-free list of ids in
reverse order of each other: the chain is a well-formed doubly linked
list anchored at the sentinel. -/
theorem chain_walks_reverse (ops : List COp)
    (hv : validCalls [] ops = true) :
    chainWellFormed (runChain emptyChain ops) := by
  have h := repr_runChain ops emptyChain [] repr_empty hv
  exact ⟨absChain [] ops, h.nodup,
    fun fuel hf => ⟨forwardWalk_of_repr h hf, backwardWalk_of_repr h hf⟩⟩

/-- Concrete instantiation of `chain_walks_reverse`: append 1, append 2,
remove 1. -/
theorem chain_walks_reverse_witness :
    validCalls [] [COp.app 1, COp.app 2, COp.rem 1] = true ∧
    chainWellFormed (runChain emptyChain [COp.app 1, COp.app 2, COp.rem 1]) :=
  ⟨by decide, chain_walks_reverse [COp.app 1, COp.app 2, COp.rem 1] (by decide)⟩

/-- The storage state after appending the same id twice to an empty chain. -/
def chainCex : ChainMap := runChain emptyChain [COp.app 1, COp.app 1]

/-- Claim C1, as stated (for every sequence of append/remove calls), is
false: appending the same id twice yields a chain whose backward walk
loops on node 1 and never mirrors the forward walk. -/
theorem chain_walks_reverse_counterexample : ¬ chainWellFormed chainCex := by
  intro hwf
  rcases hwf with ⟨L, hnd, hL⟩
  have hfw1 : ∀ f, forwardWalk chainCex (f + 1) = [1] := by
    intro f
    rw [forwardWalk]
    have h0 : (readChain chainCex none).next = some 1 := by decide
    rw [h0, walkN]
    have h1 : (readChain chainCex (some 1)).next = none := by decide
    rw [h1]
    cases f <;> rfl
  have hb1 : ∀ f, walkP chainCex f (some 1) = List.replicate f 1 := by
    intro f
    induction f with
    | zero => rfl
    | succ g ih =>
      rw [walkP]
      have h1 : (readChain chainCex (some 1)).prev = some 1 := by decide
      rw [h1, ih, List.replicate_succ]
  have hbw : ∀ f, backwardWalk chainCex f = List.replicate f 1 := by
    intro f
    rw [backwardWalk]
    have h0 : (readChain chainCex none).prev = some 1 := by decide
    rw [h0, hb1]
  rcases hL (L.length + 2) (by omega) with ⟨hfwL, hbwL⟩
  have hL1 : L = [1] := by rw [← hfwL, hfw1 (L.length + 1)]
  subst hL1
  rw [hbw] at hbwL
  exact absurd hbwL (by decide)

end ClaimC1

/-! ### Characterizations of the lesson-5 operations -/

namespace L5

theorem insert_kitty_eq (owner : Account) (kitty_id : KittyId) (kitty : Kitty)
    (s : State) :
    insert_kitty owner kitty_id kitty s = .ok
      { s with
        kitties := fun k => if k = kitty_id then some kitty else s.kitties k,
        kittiesCount := kitty_id + 1,
        kittyOwner := fun k => if k = kitty_id then some owner else s.kittyOwner k,
        owned := ownedAppend s.owned owner kitty_id } := by
  unfold insert_kitty insert_owned_kitty
  rw [if_pos (by simp)]

theorem create_eq (maxK : Nat) (sender : Account) (dna : Genome) (s : State)
    (h : s.kittiesCount ≠ maxK) :
    create maxK sender dna s = insert_kitty sender s.kittiesCount ⟨dna, 0⟩ s := by
  unfold create next_kitty_id
  rw [if_neg h]
  rfl

theorem create_overflow (maxK : Nat) (sender : Account) (dna : Genome) (s : State)
    (h : s.kittiesCount = maxK) :
    create maxK sender dna s = .error KErr.overflow := by
  unfold create next_kitty_id
  rw [if_pos h]
  rfl

theorem do_breed_eq (maxK : Nat) (sender : Account) (id1 id2 : KittyId) (sel : Genome)
    (s : State) (k1 k2 : Kitty)
    (h1 : s.kitties id1 = some k1) (h2 : s.kitties id2 = some k2)
    (hne : id1 ≠ id2) (hov : s.kittiesCount ≠ maxK) :
    do_breed maxK sender id1 id2 sel s =
      insert_kitty sender s.kittiesCount ⟨combineGenome k1.dna k2.dna sel, 0⟩ s := by
  unfold do_breed next_kitty_id
  rw [h1, h2]
  dsimp only
  rw [if_neg hne, if_neg hov]
  rfl

theorem do_breed_invalid1 {maxK : Nat} {sender : Account} {id1 id2 : KittyId}
    {sel : Genome} {s : State} (h1 : s.kitties id1 = none) :
    do_breed maxK sender id1 id2 sel s = .error KErr.invalidParent1 := by
  unfold do_breed
  rw [h1]

theorem do_breed_invalid2 {maxK : Nat} {sender : Account} {id1 id2 : KittyId}
    {sel : Genome} {s : State} {k1 : Kitty}
    (h1 : s.kitties id1 = some k1) (h2 : s.kitties id2 = none) :
    do_breed maxK sender id1 id2 sel s = .error KErr.invalidParent2 := by
  unfold do_breed
  rw [h1]
  dsimp only
  rw [h2]

theorem do_breed_same {maxK : Nat} {sender : Account} {id1 id2 : KittyId}
    {sel : Genome} {s : State} (heq : id1 = id2)
    (hsome : (s.kitties id1).isSome) :
    do_breed maxK sender id1 id2 sel s = .error KErr.sameParent := by
  rcases Option.isSome_iff_exists.1 hsome with ⟨k1, h1⟩
  unfold do_breed
  rw [h1]
  dsimp only
  rw [← heq, h1]
  dsimp only
  rw [if_pos rfl]

theorem do_transfer_owner_eq {s : State} {sender toA : Account} {kitty_id : KittyId}
    (h : s.kittyOwner kitty_id = some sender) :
    do_transfer sender toA kitty_id s = .ok
      { s with
        kittyOwner := fun k => if k = kitty_id then some toA else s.kittyOwner k,
        owned := ownedAppend (ownedRemove s.owned sender kitty_id) toA kitty_id } := by
  unfold do_transfer
  rw [h]
  simp

theorem do_transfer_unauthorized {s : State} {sender toA : Account} {kitty_id : KittyId}
    (h : s.kittyOwner kitty_id ≠ some sender) :
    do_transfer sender toA kitty_id s = .error KErr.noOwner ∨
    do_transfer sender toA kitty_id s = .error KErr.notOwner := by
  unfold do_transfer
  cases ho : s.kittyOwner kitty_id with
  | none => exact Or.inl rfl
  | some o =>
    have hne : o ≠ sender := fun hc => h (by rw [ho, hc])
    right
    dsimp only
    rw [if_neg hne]

theorem do_transfer_ok_count {s s1 : State} {sender toA : Account} {kitty_id : KittyId}
    (h : do_transfer sender toA kitty_id s = .ok s1) :
    s1.kittiesCount = s.kittiesCount ∧ s1.kitties = s.kitties := by
  unfold do_transfer at h
  cases ho : s.kittyOwner kitty_id with
  | none =>
    rw [ho] at h
    cases h
  | some o =>
    rw [ho] at h
    dsimp only at h
    by_cases hos : o = sender
    · rw [if_pos hos] at h
      injection h with h1
      rw [← h1]
      exact ⟨rfl, rfl⟩
    · rw [if_neg hos] at h
      cases h

end L5

section ClaimC9

/-- Claim C9: the panic branch of the `.expect(..)` on the internal
re-parenting call in `do_buy_kitty` is unreachable: once the existence,
ownership, not-self, price and balance-transfer steps have succeeded, the
`do_transfer(owner, buyer, id)` call cannot fail, so no input in any state
produces the distinguished `expectFailed` error. -/
theorem buy_expect_unreachable (sender : Account) (kitty_id : KittyId)
    (max_price : Nat) (s : L5.State) :
    errOf (L5.do_buy_kitty sender kitty_id max_price s) ≠ some KErr.expectFailed := by
  unfold L5.do_buy_kitty
  cases hk : s.kitties kitty_id with
  | none => simp [errOf]
  | some kitty =>
    cases ho : s.kittyOwner kitty_id with
    | none => simp [errOf]
    | some owner =>
      dsimp only
      by_cases hos : owner = sender
      · rw [if_pos hos]
        simp [errOf]
      · rw [if_neg hos]
        by_cases hp0 : kitty.price = 0
        · rw [if_pos hp0]
          simp [errOf]
        · rw [if_neg hp0]
          by_cases hpm : kitty.price ≤ max_price
          · rw [if_pos hpm]
            cases ht : L5.currencyTransfer sender owner kitty.price s.balances with
            | none => simp [errOf]
            | some newBal =>
              dsimp only
              have hdt := @L5.do_transfer_owner_eq
                { s with balances := newBal } owner sender kitty_id ho
              rw [hdt]
              simp [errOf]
          · rw [if_neg hpm]
            simp [errOf]

end ClaimC9

section ClaimC2

/-- Claim C2: for a `buy_kitty` call on an existing, for-sale kitty whose
owner is not the buyer and whose price is within `max_price`: if the
external balance transfer fails (insufficient balance), the call returns
the `InsufficientBalance` error and the whole state — in particular
`owner_of(id)` and the kitty's price — is unchanged; if the transfer
succeeds, the call succeeds and afterwards `owner_of(id)` is the buyer and
the kitty's price is `0`. -/
theorem buy_atomic (maxK : Nat) (sender : Account) (kitty_id : KittyId)
    (max_price : Nat) (s : L5.State) (kitty : L5.Kitty) (owner : Account)
    (hk : s.kitties kitty_id = some kitty)
    (ho : s.kittyOwner kitty_id = some owner)
    (hfs : kitty.price ≠ 0)
    (hos : owner ≠ sender)
    (hmp : kitty.price ≤ max_price) :
    (s.balances sender < kitty.price →
      L5.do_buy_kitty sender kitty_id max_price s = .error KErr.insufficientBalance ∧
      L5.run maxK s [L5.Op.buyOp sender kitty_id max_price] = s) ∧
    (kitty.price ≤ s.balances sender →
      ∃ s2, L5.do_buy_kitty sender kitty_id max_price s = .ok s2 ∧
        s2.kittyOwner kitty_id = some sender ∧
        s2.kitties kitty_id = some ⟨kitty.dna, 0⟩) := by
  constructor
  · intro hlt
    have hct : L5.currencyTransfer sender owner kitty.price s.balances = none := by
      unfold L5.currencyTransfer
      rw [if_neg (by omega)]
    have hbuy : L5.do_buy_kitty sender kitty_id max_price s =
        .error KErr.insufficientBalance := by
      unfold L5.do_buy_kitty
      rw [hk]
      dsimp only
      rw [ho]
      dsimp only
      rw [if_neg hos, if_neg hfs, if_pos hmp, hct]
    refine ⟨hbuy, ?_⟩
    show L5.run maxK (L5.stepR maxK (L5.Op.buyOp sender kitty_id max_price) s) [] = s
    unfold L5.stepR L5.stepOp
    dsimp only
    rw [hbuy]
    rfl
  · intro hge
    have hct : L5.currencyTransfer sender owner kitty.price s.balances =
        some (fun a => if a = sender then s.balances sender - kitty.price
              else if a = owner then s.balances owner + kitty.price
              else s.balances a) := by
      unfold L5.currencyTransfer
      rw [if_pos hge]
    have hdt := @L5.do_transfer_owner_eq
      { s with balances := fun a => if a = sender then s.balances sender - kitty.price
              else if a = owner then s.balances owner + kitty.price
              else s.balances a }
      owner sender kitty_id ho
    refine ⟨{ s with
        balances := fun a => if a = sender then s.balances sender - kitty.price
          else if a = owner then s.balances owner + kitty.price else s.balances a,
        kittyOwner := fun k => if k = kitty_id then some sender else s.kittyOwner k,
        owned := L5.ownedAppend (L5.ownedRemove s.owned owner kitty_id) sender kitty_id,
        kitties := fun k => if k = kitty_id then some ⟨kitty.dna, 0⟩ else s.kitties k },
      ?_, by simp, by simp⟩
    unfold L5.do_buy_kitty
    rw [hk]
    dsimp only
    rw [ho]
    dsimp only
    rw [if_neg hos, if_neg hfs, if_pos hmp, hct]
    dsimp only
    rw [hdt]

end ClaimC2

section ClaimC6

/-- Claim C6: a transfer whose sender is not the current owner (or whose
kitty has no owner) fails with an authorization error, and running it
mutates nothing: the state after the operation is the state before. -/
theorem transfer_unauthorized_unchanged (maxK : Nat) (sender toA : Account)
    (kitty_id : KittyId) (s : L5.State)
    (h : s.kittyOwner kitty_id ≠ some sender) :
    (L5.do_transfer sender toA kitty_id s = .error KErr.noOwner ∨
     L5.do_transfer sender toA kitty_id s = .error KErr.notOwner) ∧
    L5.run maxK s [L5.Op.transferOp sender toA kitty_id] = s := by
  have herr := @L5.do_transfer_unauthorized s sender toA kitty_id h
  refine ⟨herr, ?_⟩
  show L5.run maxK (L5.stepR maxK (L5.Op.transferOp sender toA kitty_id) s) [] = s
  unfold L5.stepR L5.stepOp
  dsimp only
  rcases herr with herr | herr <;> rw [herr] <;> rfl

/-- Concrete instantiation of `transfer_unauthorized_unchanged`: account 0
does not own kitty 0 in the initial state. -/
theorem transfer_unauthorized_unchanged_witness :
    L5.init.kittyOwner 0 ≠ some 0 ∧
    ((L5.do_transfer 0 1 0 L5.init = .error KErr.noOwner ∨
      L5.do_transfer 0 1 0 L5.init = .error KErr.notOwner) ∧
     L5.run 5 L5.init [L5.Op.transferOp 0 1 0] = L5.init) :=
  ⟨by decide, transfer_unauthorized_unchanged 5 0 1 0 L5.init (by decide)⟩

end ClaimC6

section ClaimC5

/-- Claim C5 (amended): `do_breed` fails with `Invalid kitty_id_1` /
`Invalid kitty_id_2` whenever the respective parent does not exist, and
with the same-parent error whenever the two parent ids are equal and the
parent exists (the existence checks run first, so equal nonexistent
parents report an invalid parent instead); in every failure case no kitty
is created and the state is unchanged. -/
theorem breed_precondition_errors (maxK : Nat) (sender : Account)
    (id1 id2 : KittyId) (sel : Genome) (s : L5.State) :
    (s.kitties id1 = none →
      L5.do_breed maxK sender id1 id2 sel s = .error KErr.invalidParent1) ∧
    (∀ k1, s.kitties id1 = some k1 → s.kitties id2 = none →
      L5.do_breed maxK sender id1 id2 sel s = .error KErr.invalidParent2) ∧
    (id1 = id2 → (s.kitties id1).isSome →
      L5.do_breed maxK sender id1 id2 sel s = .error KErr.sameParent) ∧
    (∀ e, L5.do_breed maxK sender id1 id2 sel s = .error e →
      L5.run maxK s [L5.Op.breedOp sender id1 id2 sel] = s) := by
  refine ⟨?_, ?_, ?_, ?_⟩
  · intro h1
    exact L5.do_breed_invalid1 h1
  · intro k1 h1 h2
    exact L5.do_breed_invalid2 h1 h2
  · intro heq hsome
    exact L5.do_breed_same heq hsome
  · intro e herr
    show L5.run maxK (L5.stepR maxK (L5.Op.breedOp sender id1 id2 sel) s) [] = s
    unfold L5.stepR L5.stepOp
    dsimp only
    rw [herr]
    rfl

/-- Concrete instantiation of `breed_precondition_errors`: breeding two
nonexistent kitties from the initial state. -/
theorem breed_precondition_errors_witness :
    L5.init.kitties 0 = none ∧
    L5.do_breed 9 7 0 1 (fun _ => 0) L5.init = .error KErr.invalidParent1 :=
  ⟨rfl, ((breed_precondition_errors 9 7 0 1 (fun _ => 0) L5.init).1 rfl)⟩

/-- Claim C5, as stated, is false on equal nonexistent parents:
`breed(0, 0)` in the initial state reports `Invalid kitty_id_1`, not the
same-parent error, because the existence checks precede the distinctness
check. -/
theorem breed_same_parent_counterexample :
    L5.do_breed 16 0 0 0 (fun _ => 0) L5.init = .error KErr.invalidParent1 ∧
    KErr.invalidParent1 ≠ KErr.sameParent := by
  constructor
  · rfl
  · decide

end ClaimC5

namespace L5

theorem create_ok_count {maxK : Nat} {sender : Account} {dna : Genome}
    {s s1 : State} (h : create maxK sender dna s = .ok s1) :
    s1.kittiesCount = s.kittiesCount + 1 := by
  by_cases hov : s.kittiesCount = maxK
  · rw [create_overflow _ _ _ _ hov] at h
    exact Except.noConfusion h
  · rw [create_eq _ _ _ _ hov, insert_kitty_eq] at h
    injection h with h1
    rw [← h1]

theorem do_breed_overflow (maxK : Nat) (sender : Account) (id1 id2 : KittyId)
    (sel : Genome) (s : State) (k1 k2 : Kitty)
    (h1 : s.kitties id1 = some k1) (h2 : s.kitties id2 = some k2)
    (hne : id1 ≠ id2) (hov : s.kittiesCount = maxK) :
    do_breed maxK sender id1 id2 sel s = .error KErr.overflow := by
  unfold do_breed next_kitty_id
  rw [h1]
  dsimp only
  rw [h2]
  dsimp only
  rw [if_neg hne, if_pos hov]
  rfl

theorem do_breed_ok_count {maxK : Nat} {sender : Account} {id1 id2 : KittyId}
    {sel : Genome} {s s1 : State}
    (h : do_breed maxK sender id1 id2 sel s = .ok s1) :
    s1.kittiesCount = s.kittiesCount + 1 := by
  cases h1 : s.kitties id1 with
  | none =>
    rw [do_breed_invalid1 h1] at h
    exact Except.noConfusion h
  | some k1 =>
    cases h2 : s.kitties id2 with
    | none =>
      rw [do_breed_invalid2 h1 h2] at h
      exact Except.noConfusion h
    | some k2 =>
      by_cases hne : id1 = id2
      · rw [do_breed_same hne (by rw [h1]; rfl)] at h
        exact Except.noConfusion h
      · by_cases hov : s.kittiesCount = maxK
        · rw [do_breed_overflow maxK sender id1 id2 sel s k1 k2 h1 h2 hne hov] at h
          exact Except.noConfusion h
        · rw [do_breed_eq maxK sender id1 id2 sel s k1 k2 h1 h2 hne hov,
            insert_kitty_eq] at h
          injection h with hh
          rw [← hh]

theorem do_buy_ok_count {sender : Account} {kitty_id : KittyId} {mp : Nat}
    {s s1 : State} (h : do_buy_kitty sender kitty_id mp s = .ok s1) :
    s1.kittiesCount = s.kittiesCount := by
  unfold do_buy_kitty at h
  cases hk : s.kitties kitty_id with
  | none =>
    rw [hk] at h
    exact Except.noConfusion h
  | some kitty =>
    rw [hk] at h
    dsimp only at h
    cases ho : s.kittyOwner kitty_id with
    | none =>
      rw [ho] at h
      exact Except.noConfusion h
    | some owner =>
      rw [ho] at h
      dsimp only at h
      by_cases hos : owner = sender
      · rw [if_pos hos] at h
        exact Except.noConfusion h
      · rw [if_neg hos] at h
        by_cases hp0 : kitty.price = 0
        · rw [if_pos hp0] at h
          exact Except.noConfusion h
        · rw [if_neg hp0] at h
          by_cases hpm : kitty.price ≤ mp
          · rw [if_pos hpm] at h
            cases ht : currencyTransfer sender owner kitty.price s.balances with
            | none =>
              rw [ht] at h
              exact Except.noConfusion h
            | some nb =>
              rw [ht] at h
              dsimp only at h
              cases hdt : do_transfer owner sender kitty_id { s with balances := nb } with
              | error e =>
                rw [hdt] at h
                exact Except.noConfusion h
              | ok s2 =>
                rw [hdt] at h
                dsimp only at h
                injection h with hh
                have hc := (do_transfer_ok_count hdt).1
                rw [← hh]
                exact hc
          · rw [if_neg hpm] at h
            exact Except.noConfusion h

theorem do_set_price_ok_count {sender : Account} {kitty_id : KittyId} {p : Nat}
    {s s1 : State} (h : do_set_price sender kitty_id p s = .ok s1) :
    s1.kittiesCount = s.kittiesCount := by
  unfold do_set_price at h
  cases hk : s.kitties kitty_id with
  | none =>
    rw [hk] at h
    exact Except.noConfusion h
  | some kitty =>
    rw [hk] at h
    dsimp only at h
    cases ho : s.kittyOwner kitty_id with
    | none =>
      rw [ho] at h
      exact Except.noConfusion h
    | some owner =>
      rw [ho] at h
      dsimp only at h
      by_cases hos : owner = sender
      · rw [if_pos hos] at h
        injection h with hh
        rw [← hh]
      · rw [if_neg hos] at h
        exact Except.noConfusion h

theorem stepR_count_le (maxK : Nat) (op : Op) (s : State) :
    s.kittiesCount ≤ (stepR maxK op s).kittiesCount := by
  unfold stepR
  cases hop : stepOp maxK op s with
  | error e => exact le_refl _
  | ok s1 =>
    dsimp only
    cases op with
    | createOp sender dna =>
      have hc := @create_ok_count maxK sender dna s s1 hop
      omega
    | breedOp sender id1 id2 sel =>
      have hc := @do_breed_ok_count maxK sender id1 id2 sel s s1 hop
      omega
    | transferOp sender toA id =>
      have hc := (@do_transfer_ok_count s s1 sender toA id hop).1
      omega
    | buyOp sender id mp =>
      have hc := @do_buy_ok_count sender id mp s s1 hop
      omega
    | setPriceOp sender id p =>
      have hc := @do_set_price_ok_count sender id p s s1 hop
      omega

theorem issuedOf_eq (maxK : Nat) (op : Op) (s : State) :
    issuedOf maxK op s = [] ∨
    (issuedOf maxK op s = [s.kittiesCount] ∧
     (stepR maxK op s).kittiesCount = s.kittiesCount + 1) := by
  unfold issuedOf stepR
  cases op with
  | createOp sender dna =>
    cases hop : stepOp maxK (Op.createOp sender dna) s with
    | error e => exact Or.inl rfl
    | ok s1 =>
      right
      refine ⟨rfl, ?_⟩
      dsimp only
      exact @create_ok_count maxK sender dna s s1 hop
  | breedOp sender id1 id2 sel =>
    cases hop : stepOp maxK (Op.breedOp sender id1 id2 sel) s with
    | error e => exact Or.inl rfl
    | ok s1 =>
      right
      refine ⟨rfl, ?_⟩
      dsimp only
      exact @do_breed_ok_count maxK sender id1 id2 sel s s1 hop
  | transferOp sender toA id => exact Or.inl rfl
  | buyOp sender id mp => exact Or.inl rfl
  | setPriceOp sender id p => exact Or.inl rfl

end L5

section ClaimC4

/-- Claim C4: a successful breed with a fixed selector creates the new
kitty with genome equal to the byte-wise `combine_dna` of the two parent
genomes under that selector and price `0`, under the freshly issued id
(the current counter), owned by the breeder and appended to the breeder's
ownership chain. -/
theorem breed_deterministic (maxK : Nat) (sender : Account) (id1 id2 : KittyId)
    (sel : Genome) (s : L5.State) (k1 k2 : L5.Kitty)
    (h1 : s.kitties id1 = some k1) (h2 : s.kitties id2 = some k2)
    (hne : id1 ≠ id2) (hov : s.kittiesCount ≠ maxK) :
    ∃ s2, L5.do_breed maxK sender id1 id2 sel s = .ok s2 ∧
      s2.kitties s.kittiesCount = some ⟨combineGenome k1.dna k2.dna sel, 0⟩ ∧
      s2.kittyOwner s.kittiesCount = some sender ∧
      s2.owned = L5.ownedAppend s.owned sender s.kittiesCount ∧
      s2.kittiesCount = s.kittiesCount + 1 := by
  rw [L5.do_breed_eq maxK sender id1 id2 sel s k1 k2 h1 h2 hne hov,
    L5.insert_kitty_eq]
  exact ⟨_, rfl, by simp, by simp, rfl, rfl⟩

/-- A two-kitty state for the concrete instantiations. -/
def breedState : L5.State :=
  { L5.init with
    kitties := fun k => if k = 0 then some ⟨fun _ => 1, 0⟩
               else if k = 1 then some ⟨fun _ => 2, 0⟩ else none,
    kittyOwner := fun k => if k = 0 then some 4
                  else if k = 1 then some 4 else none,
    kittiesCount := 2 }

/-- Concrete instantiation of `breed_deterministic`. -/
theorem breed_deterministic_witness :
    ∃ s2, L5.do_breed 9 4 0 1 (fun _ => 7) breedState = .ok s2 ∧
      s2.kitties breedState.kittiesCount =
        some ⟨combineGenome (fun _ => 1) (fun _ => 2) (fun _ => 7), 0⟩ ∧
      s2.kittyOwner breedState.kittiesCount = some 4 ∧
      s2.owned = L5.ownedAppend breedState.owned 4 breedState.kittiesCount ∧
      s2.kittiesCount = breedState.kittiesCount + 1 :=
  breed_deterministic 9 4 0 1 (fun _ => 7) breedState ⟨fun _ => 1, 0⟩ ⟨fun _ => 2, 0⟩
    rfl rfl (by decide) (by decide)

end ClaimC4

section ClaimC2Witness

/-- A one-kitty state, for sale at price 5, owned by account 1; account 0
holds balance 10. -/
def buyState : L5.State :=
  { L5.init with
    kitties := fun k => if k = 0 then some ⟨fun _ => 3, 5⟩ else none,
    kittyOwner := fun k => if k = 0 then some 1 else none,
    kittiesCount := 1,
    balances := fun a => if a = 0 then 10 else 0 }

/-- Concrete instantiation of `buy_atomic` (successful purchase). -/
theorem buy_atomic_witness :
    ∃ s2, L5.do_buy_kitty 0 0 6 buyState = .ok s2 ∧
      s2.kittyOwner 0 = some 0 ∧
      s2.kitties 0 = some ⟨fun _ => 3, 0⟩ :=
  (buy_atomic 7 0 0 6 buyState ⟨fun _ => 3, 5⟩ 1 rfl rfl (by decide) (by decide)
    (by decide)).2 (by decide)

end ClaimC2Witness

section ClaimC7

/-- Claim C7: across any operation sequence the issued asset ids are
strictly increasing (hence never reused): every issued id is at least the
starting counter and below the final counter, the counter never
decreases, and when the counter equals the index type's maximum a
creation fails with the overflow error, issues no new id, and leaves the
counter (indeed the whole state) unchanged — it does not wrap. -/
theorem issued_ids_monotone (maxK : Nat) (ops : List L5.Op) (s : L5.State) :
    ((L5.runIssued maxK s ops).2.Pairwise (· < ·)) ∧
    (∀ i ∈ (L5.runIssued maxK s ops).2,
      s.kittiesCount ≤ i ∧ i < (L5.runIssued maxK s ops).1.kittiesCount) ∧
    s.kittiesCount ≤ (L5.runIssued maxK s ops).1.kittiesCount ∧
    (∀ sender dna, s.kittiesCount = maxK →
      L5.create maxK sender dna s = .error KErr.overflow ∧
      L5.stepR maxK (L5.Op.createOp sender dna) s = s) := by
  have hover : ∀ (s3 : L5.State), ∀ sender dna, s3.kittiesCount = maxK →
      L5.create maxK sender dna s3 = .error KErr.overflow ∧
      L5.stepR maxK (L5.Op.createOp sender dna) s3 = s3 := by
    intro s3 sender dna hov
    have hc := L5.create_overflow maxK sender dna s3 hov
    refine ⟨hc, ?_⟩
    unfold L5.stepR L5.stepOp
    dsimp only
    rw [hc]
  have hmain : ∀ (ops : List L5.Op) (s : L5.State),
      ((L5.runIssued maxK s ops).2.Pairwise (· < ·)) ∧
      (∀ i ∈ (L5.runIssued maxK s ops).2,
        s.kittiesCount ≤ i ∧ i < (L5.runIssued maxK s ops).1.kittiesCount) ∧
      s.kittiesCount ≤ (L5.runIssued maxK s ops).1.kittiesCount := by
    intro ops
    induction ops with
    | nil =>
      intro s
      refine ⟨List.Pairwise.nil, ?_, le_refl _⟩
      intro i hi
      cases hi
    | cons op rest ih =>
      intro s
      obtain ⟨ihp, ihb, ihm⟩ := ih (L5.stepR maxK op s)
      have hstep := L5.stepR_count_le maxK op s
      simp only [L5.runIssued]
      rcases L5.issuedOf_eq maxK op s with hio | ⟨hio, hc1⟩
      · rw [hio, List.nil_append]
        refine ⟨ihp, ?_, le_trans hstep ihm⟩
        intro i hi
        rcases ihb i hi with ⟨hb1, hb2⟩
        exact ⟨le_trans hstep hb1, hb2⟩
      · rw [hio, List.singleton_append]
        refine ⟨?_, ?_, ?_⟩
        · refine List.Pairwise.cons ?_ ihp
          intro j hj
          have hb1 := (ihb j hj).1
          rw [hc1] at hb1
          exact Nat.lt_of_succ_le hb1
        · intro i hi
          rcases List.mem_cons.1 hi with hieq | hi2
          · subst hieq
            have hlt : s.kittiesCount + 1 ≤
                (L5.runIssued maxK (L5.stepR maxK op s) rest).1.kittiesCount := by
              rw [← hc1]
              exact ihm
            exact ⟨le_refl _, Nat.lt_of_succ_le hlt⟩
          · rcases ihb i hi2 with ⟨hb1, hb2⟩
            rw [hc1] at hb1
            exact ⟨le_trans (Nat.le_succ _) hb1, hb2⟩
        · rw [hc1] at ihm
          exact le_trans (Nat.le_succ _) ihm
  exact ⟨(hmain ops s).1, (hmain ops s).2.1, (hmain ops s).2.2, hover s⟩

/-- Concrete instantiation of `issued_ids_monotone`: with the counter at
the maximum, `create` overflows and changes nothing. -/
theorem issued_ids_monotone_witness :
    L5.create 2 0 (fun _ => 0) { L5.init with kittiesCount := 2 } =
      .error KErr.overflow ∧
    L5.stepR 2 (L5.Op.createOp 0 (fun _ => 0)) { L5.init with kittiesCount := 2 } =
      { L5.init with kittiesCount := 2 } :=
  (issued_ids_monotone 2 [] { L5.init with kittiesCount := 2 }).2.2.2 0
    (fun _ => 0) rfl

end ClaimC7

/-! ### Counting owners: correctness of the lesson-4 per-account counters -/

/-- Number of ids below `n` whose owner entry is `a`. -/
def ownerCount (w : KittyId → Option Account) (n : Nat) (a : Account) : Nat :=
  ((Finset.range n).filter (fun id => w id = some a)).card

theorem ownerCount_zero (w : KittyId → Option Account) (a : Account) :
    ownerCount w 0 a = 0 := by
  unfold ownerCount
  rw [Finset.range_zero, Finset.filter_empty, Finset.card_empty]

/-- Extending the owner map with a fresh id `n`. -/
theorem ownerCount_succ (w : KittyId → Option Account) (n : Nat) (owner a : Account) :
    ownerCount (fun k => if k = n then some owner else w k) (n + 1) a =
      ownerCount w n a + (if a = owner then 1 else 0) := by
  unfold ownerCount
  rw [Finset.range_succ, Finset.filter_insert]
  have hcongr : (Finset.range n).filter
        (fun id => (if id = n then some owner else w id) = some a)
      = (Finset.range n).filter (fun id => w id = some a) := by
    apply Finset.filter_congr
    intro k hk
    rw [if_neg (Nat.ne_of_lt (Finset.mem_range.1 hk))]
  by_cases ha : a = owner
  · have hpn : (if n = n then some owner else w n) = some a := by
      rw [if_pos rfl, ha]
    have hnotm : n ∉ (Finset.range n).filter (fun id => w id = some a) := fun hc =>
      absurd (Finset.mem_range.1 (Finset.mem_filter.1 hc).1) (lt_irrefl n)
    rw [if_pos hpn, hcongr, Finset.card_insert_of_not_mem hnotm, if_pos ha]
  · have hpn : ¬ ((if n = n then some owner else w n) = some a) := by
      rw [if_pos rfl]
      exact fun hc => ha (Option.some_injective _ hc).symm
    rw [if_neg hpn, hcongr, if_neg ha]
    rfl

/-- Re-pointing an existing id from `src` to `dst`. -/
theorem ownerCount_update (w : KittyId → Option Account) (n : Nat)
    (id : KittyId) (src dst a : Account)
    (hid : id < n) (hw : w id = some src) (hne : src ≠ dst) :
    ownerCount (fun k => if k = id then some dst else w k) n a =
      (if a = dst then ownerCount w n a + 1
       else if a = src then ownerCount w n a - 1
       else ownerCount w n a) := by
  unfold ownerCount
  by_cases hadst : a = dst
  · subst hadst
    rw [if_pos rfl]
    have hset : (Finset.range n).filter (fun k => (if k = id then some a else w k) = some a)
        = insert id ((Finset.range n).filter (fun k => w k = some a)) := by
      ext k
      simp only [Finset.mem_filter, Finset.mem_insert, Finset.mem_range]
      constructor
      · intro hkk
        by_cases hk : k = id
        · exact Or.inl hk
        · rw [if_neg hk] at hkk
          exact Or.inr hkk
      · intro hk
        rcases hk with hk | hkk
        · subst hk
          exact ⟨hid, by rw [if_pos rfl]⟩
        · refine ⟨hkk.1, ?_⟩
          have hkid : k ≠ id := fun hc => by
            rw [hc, hw] at hkk
            exact hne (Option.some_injective _ hkk.2)
          rw [if_neg hkid]
          exact hkk.2
    rw [hset, Finset.card_insert_of_not_mem]
    intro hc
    rw [Finset.mem_filter, hw] at hc
    exact hne (Option.some_injective _ hc.2)
  · rw [if_neg hadst]
    by_cases hasrc : a = src
    · subst hasrc
      rw [if_pos rfl]
      have hset : (Finset.range n).filter (fun k => (if k = id then some dst else w k) = some a)
          = ((Finset.range n).filter (fun k => w k = some a)).erase id := by
        ext k
        simp only [Finset.mem_filter, Finset.mem_erase, Finset.mem_range]
        constructor
        · intro hkk
          by_cases hk : k = id
          · rw [hk, if_pos rfl] at hkk
            exact absurd (Option.some_injective _ hkk.2).symm hadst
          · rw [if_neg hk] at hkk
            exact ⟨hk, hkk⟩
        · intro hkk
          rw [if_neg hkk.1]
          exact hkk.2
      rw [hset, Finset.card_erase_of_mem]
      rw [Finset.mem_filter, Finset.mem_range]
      exact ⟨hid, hw⟩
    · rw [if_neg hasrc]
      have hset : (Finset.range n).filter (fun k => (if k = id then some dst else w k) = some a)
          = (Finset.range n).filter (fun k => w k = some a) := by
        apply Finset.filter_congr
        intro k hk
        by_cases hkid : k = id
        · rw [hkid, if_pos rfl, hw]
          constructor
          · intro hc
            exact absurd (Option.some_injective _ hc).symm hadst
          · intro hc
            exact absurd (Option.some_injective _ hc).symm hasrc
        · rw [if_neg hkid]
      rw [hset]

/-- An owned id witnesses a positive count. -/
theorem ownerCount_pos (w : KittyId → Option Account) (n : Nat)
    {id : KittyId} {src : Account} (hid : id < n) (hw : w id = some src) :
    1 ≤ ownerCount w n src := by
  unfold ownerCount
  rw [Nat.succ_le_iff, Finset.card_pos]
  exact ⟨id, Finset.mem_filter.2 ⟨Finset.mem_range.2 hid, hw⟩⟩

/-- Two accounts cannot own more than `n` ids in total. -/
theorem ownerCount_add_le (w : KittyId → Option Account) (n : Nat)
    (a b : Account) (hab : a ≠ b) :
    ownerCount w n a + ownerCount w n b ≤ n := by
  unfold ownerCount
  have hdisj : Disjoint ((Finset.range n).filter (fun id => w id = some a))
      ((Finset.range n).filter (fun id => w id = some b)) := by
    rw [Finset.disjoint_left]
    intro k hka hkb
    rw [Finset.mem_filter] at hka hkb
    rw [hka.2] at hkb
    exact hab (Option.some_injective _ hkb.2)
  rw [← Finset.card_union_of_disjoint hdisj]
  calc (((Finset.range n).filter (fun id => w id = some a)) ∪
        ((Finset.range n).filter (fun id => w id = some b))).card
      ≤ (Finset.range n).card :=
        Finset.card_le_card (Finset.union_subset (Finset.filter_subset _ _)
          (Finset.filter_subset _ _))
    _ = n := Finset.card_range n

namespace L4

theorem create_ok_eq (maxK : Nat) (sender : Account) (dna : Genome) (s : State)
    (h : s.kittiesCount ≠ maxK) :
    create maxK sender dna s = .ok (insert_kitty sender s.kittiesCount dna s) := by
  unfold create next_kitty_id
  rw [if_neg h]
  rfl

theorem create_overflow_l4 (maxK : Nat) (sender : Account) (dna : Genome) (s : State)
    (h : s.kittiesCount = maxK) :
    create maxK sender dna s = .error KErr.overflow := by
  unfold create next_kitty_id
  rw [if_pos h]
  rfl

theorem do_breed_invalid1_l4 {maxK : Nat} {sender : Account} {id1 id2 : KittyId}
    {sel : Genome} {s : State} (h1 : s.kitties id1 = none) :
    do_breed maxK sender id1 id2 sel s = .error KErr.invalidParent1 := by
  unfold do_breed
  rw [h1]

theorem do_breed_invalid2_l4 {maxK : Nat} {sender : Account} {id1 id2 : KittyId}
    {sel : Genome} {s : State} {g1 : Genome}
    (h1 : s.kitties id1 = some g1) (h2 : s.kitties id2 = none) :
    do_breed maxK sender id1 id2 sel s = .error KErr.invalidParent2 := by
  unfold do_breed
  rw [h1]
  dsimp only
  rw [h2]

theorem do_breed_same_l4 {maxK : Nat} {sender : Account} {id1 id2 : KittyId}
    {sel : Genome} {s : State} {g1 : Genome}
    (heq : id1 = id2) (h1 : s.kitties id1 = some g1) :
    do_breed maxK sender id1 id2 sel s = .error KErr.sameParent := by
  unfold do_breed
  rw [h1]
  dsimp only
  rw [← heq, h1]
  dsimp only
  rw [if_pos rfl]

theorem do_breed_overflow_l4 {maxK : Nat} {sender : Account} {id1 id2 : KittyId}
    {sel : Genome} {s : State} {g1 g2 : Genome}
    (h1 : s.kitties id1 = some g1) (h2 : s.kitties id2 = some g2)
    (hne : id1 ≠ id2) (hov : s.kittiesCount = maxK) :
    do_breed maxK sender id1 id2 sel s = .error KErr.overflow := by
  unfold do_breed next_kitty_id
  rw [h1]
  dsimp only
  rw [h2]
  dsimp only
  rw [if_neg hne, if_pos hov]
  rfl

theorem do_breed_ok_eq {maxK : Nat} {sender : Account} {id1 id2 : KittyId}
    {sel : Genome} {s : State} {g1 g2 : Genome}
    (h1 : s.kitties id1 = some g1) (h2 : s.kitties id2 = some g2)
    (hne : id1 ≠ id2) (hov : s.kittiesCount ≠ maxK) :
    do_breed maxK sender id1 id2 sel s =
      .ok (insert_kitty sender s.kittiesCount (combineGenome g1 g2 sel) s) := by
  unfold do_breed next_kitty_id
  rw [h1]
  dsimp only
  rw [h2]
  dsimp only
  rw [if_neg hne, if_neg hov]
  rfl

theorem transfer_noOwner {maxK : Nat} {sender toA : Account} {kitty_id : KittyId}
    {s : State} (h : s.kittyOwner kitty_id = none) :
    transfer maxK sender toA kitty_id s = .error KErr.noOwner := by
  unfold transfer
  rw [h]

theorem transfer_notOwner {maxK : Nat} {sender toA : Account} {kitty_id : KittyId}
    {s : State} {o : Account} (ho : s.kittyOwner kitty_id = some o)
    (hne : o ≠ sender) :
    transfer maxK sender toA kitty_id s = .error KErr.notOwner := by
  unfold transfer
  rw [ho]
  dsimp only
  rw [if_neg hne]

theorem transfer_owner {maxK : Nat} {sender toA : Account} {kitty_id : KittyId}
    {s : State} (ho : s.kittyOwner kitty_id = some sender) :
    transfer maxK sender toA kitty_id s = do_transfer maxK sender toA kitty_id s := by
  unfold transfer
  rw [ho]
  dsimp only
  rw [if_pos rfl]

theorem do_transfer_overflowTo {maxK : Nat} {sender toA : Account} {kitty_id : KittyId}
    {s : State} (hcf : s.ownedCount sender ≠ 0)
    (hct : maxK < s.ownedCount toA + 1) :
    do_transfer maxK sender toA kitty_id s = .error KErr.overflowTo := by
  unfold do_transfer
  rw [if_neg hcf]
  dsimp only
  rw [if_pos hct]

theorem do_transfer_ok_eq {maxK : Nat} {sender toA : Account} {kitty_id : KittyId}
    {s : State} (hcf : s.ownedCount sender ≠ 0)
    (hct : ¬ maxK < s.ownedCount toA + 1) :
    do_transfer maxK sender toA kitty_id s = .ok
      { s with
        ownedKitties := fun a i =>
          if a = toA ∧ i = s.ownedCount toA then kitty_id
          else if a = sender ∧ i = s.ownedCount sender - 1 then 0
          else if (¬ (s.ownedIndex kitty_id = s.ownedCount sender - 1)) ∧ a = sender ∧
              i = s.ownedIndex kitty_id then
            s.ownedKitties sender (s.ownedCount sender - 1)
          else s.ownedKitties a i,
        ownedIndex := fun k =>
          if k = kitty_id then s.ownedCount toA
          else if (¬ (s.ownedIndex kitty_id = s.ownedCount sender - 1)) ∧
              k = s.ownedKitties sender (s.ownedCount sender - 1) then
            s.ownedIndex kitty_id
          else s.ownedIndex k,
        kittyOwner := fun k => if k = kitty_id then some toA else s.kittyOwner k,
        ownedCount := fun a =>
          if a = toA then s.ownedCount toA + 1
          else if a = sender then s.ownedCount sender - 1
          else s.ownedCount a } := by
  unfold do_transfer
  rw [if_neg hcf]
  dsimp only
  rw [if_neg hct]

end L4

theorem L5.do_transfer_noOwner {sender toA : Account} {kitty_id : KittyId}
    {s : L5.State} (h : s.kittyOwner kitty_id = none) :
    L5.do_transfer sender toA kitty_id s = .error KErr.noOwner := by
  unfold L5.do_transfer
  rw [h]

theorem L5.do_transfer_notOwner {sender toA : Account} {kitty_id : KittyId}
    {s : L5.State} {o : Account} (ho : s.kittyOwner kitty_id = some o)
    (hne : o ≠ sender) :
    L5.do_transfer sender toA kitty_id s = .error KErr.notOwner := by
  unfold L5.do_transfer
  rw [ho]
  dsimp only
  rw [if_neg hne]

/-- Simulation relation between a lesson-4 state and a lesson-5 state:
equal counters bounded by `maxK`, equal owner maps whose domain is exactly
the issued ids (as is the registry's), and lesson-4 per-account counters
agreeing with the actual number of ids each account owns. -/
structure SimRel (maxK : Nat) (s4 : L4.State) (s5 : L5.State) : Prop where
  count_eq : s4.kittiesCount = s5.kittiesCount
  count_le : s4.kittiesCount ≤ maxK
  owner_eq : ∀ id, s4.kittyOwner id = s5.kittyOwner id
  kitties4 : ∀ id, (s4.kitties id).isSome ↔ id < s4.kittiesCount
  kitties5 : ∀ id, (s5.kitties id).isSome ↔ id < s4.kittiesCount
  owner_dom : ∀ id, (s4.kittyOwner id).isSome ↔ id < s4.kittiesCount
  counts : ∀ a, s4.ownedCount a = ownerCount s4.kittyOwner s4.kittiesCount a

theorem simRel_init (maxK : Nat) : SimRel maxK L4.init L5.init := by
  constructor
  · rfl
  · exact Nat.zero_le _
  · intro id
    rfl
  · intro id
    simp [L4.init]
  · intro id
    simp [L5.init, L4.init]
  · intro id
    simp [L4.init]
  · intro a
    show (0 : Nat) = ownerCount L4.init.kittyOwner 0 a
    rw [ownerCount_zero]

theorem simRel_insert (maxK : Nat) {s4 : L4.State} {s5 : L5.State}
    (h : SimRel maxK s4 s5) (hlt : s4.kittiesCount < maxK)
    (sender : Account) (dna : Genome) (kt : L5.Kitty) :
    SimRel maxK (L4.insert_kitty sender s4.kittiesCount dna s4)
      { s5 with
        kitties := fun k => if k = s5.kittiesCount then some kt else s5.kitties k,
        kittiesCount := s5.kittiesCount + 1,
        kittyOwner := fun k => if k = s5.kittiesCount then some sender else s5.kittyOwner k,
        owned := L5.ownedAppend s5.owned sender s5.kittiesCount } := by
  have hce := h.count_eq
  constructor
  · show s4.kittiesCount + 1 = s5.kittiesCount + 1
    omega
  · show s4.kittiesCount + 1 ≤ maxK
    omega
  · intro id
    show (if id = s4.kittiesCount then some sender else s4.kittyOwner id)
        = (if id = s5.kittiesCount then some sender else s5.kittyOwner id)
    rw [hce, h.owner_eq id]
  · intro id
    show (if id = s4.kittiesCount then some dna else s4.kitties id).isSome
        ↔ id < s4.kittiesCount + 1
    by_cases hid : id = s4.kittiesCount
    · rw [if_pos hid]
      constructor
      · intro hh
        rw [hid]
        exact Nat.lt_succ_self _
      · intro hh
        rfl
    · rw [if_neg hid, h.kitties4 id]
      constructor
      · intro hh
        exact Nat.lt_succ_of_lt hh
      · intro hh
        exact Nat.lt_of_le_of_ne (Nat.lt_succ_iff.1 hh) hid
  · intro id
    show (if id = s5.kittiesCount then some kt else s5.kitties id).isSome
        ↔ id < s4.kittiesCount + 1
    by_cases hid : id = s5.kittiesCount
    · rw [if_pos hid]
      constructor
      · intro hh
        rw [hid, ← hce]
        exact Nat.lt_succ_self _
      · intro hh
        rfl
    · rw [if_neg hid, h.kitties5 id]
      have hid4 : id ≠ s4.kittiesCount := by rw [hce]; exact hid
      constructor
      · intro hh
        exact Nat.lt_succ_of_lt hh
      · intro hh
        exact Nat.lt_of_le_of_ne (Nat.lt_succ_iff.1 hh) hid4
  · intro id
    show (if id = s4.kittiesCount then some sender else s4.kittyOwner id).isSome
        ↔ id < s4.kittiesCount + 1
    by_cases hid : id = s4.kittiesCount
    · rw [if_pos hid]
      constructor
      · intro hh
        rw [hid]
        exact Nat.lt_succ_self _
      · intro hh
        rfl
    · rw [if_neg hid, h.owner_dom id]
      constructor
      · intro hh
        exact Nat.lt_succ_of_lt hh
      · intro hh
        exact Nat.lt_of_le_of_ne (Nat.lt_succ_iff.1 hh) hid
  · intro a
    show (if a = sender then s4.ownedCount sender + 1 else s4.ownedCount a)
        = ownerCount (fun k => if k = s4.kittiesCount then some sender else s4.kittyOwner k)
            (s4.kittiesCount + 1) a
    rw [ownerCount_succ]
    by_cases ha : a = sender
    · rw [if_pos ha, if_pos ha, h.counts sender, ha]
    · rw [if_neg ha, if_neg ha, h.counts a]
      rfl

theorem simRel_create (maxK : Nat) {s4 : L4.State} {s5 : L5.State}
    (h : SimRel maxK s4 s5) (sender : Account) (dna : Genome) :
    SimRel maxK (L4.stepR maxK (GOp.createOp sender dna) s4)
      (L5.stepR maxK (L5.Op.createOp sender dna) s5) := by
  unfold L4.stepR L4.stepOp L5.stepR L5.stepOp
  dsimp only
  by_cases hov : s4.kittiesCount = maxK
  · rw [L4.create_overflow_l4 maxK sender dna s4 hov,
      L5.create_overflow maxK sender dna s5 (by rw [← h.count_eq]; exact hov)]
    exact h
  · have hlt : s4.kittiesCount < maxK := lt_of_le_of_ne h.count_le hov
    rw [L4.create_ok_eq maxK sender dna s4 hov,
      L5.create_eq maxK sender dna s5 (by rw [← h.count_eq]; exact hov),
      L5.insert_kitty_eq]
    exact simRel_insert maxK h hlt sender dna ⟨dna, 0⟩

theorem simRel_breed (maxK : Nat) {s4 : L4.State} {s5 : L5.State}
    (h : SimRel maxK s4 s5) (sender : Account) (id1 id2 : KittyId) (sel : Genome) :
    SimRel maxK (L4.stepR maxK (GOp.breedOp sender id1 id2 sel) s4)
      (L5.stepR maxK (L5.Op.breedOp sender id1 id2 sel) s5) := by
  unfold L4.stepR L4.stepOp L5.stepR L5.stepOp
  dsimp only
  cases h51 : s5.kitties id1 with
  | none =>
    have h41 : s4.kitties id1 = none := by
      cases h4o : s4.kitties id1 with
      | none => rfl
      | some g =>
        exfalso
        have hx := (h.kitties4 id1).1 (by rw [h4o]; rfl)
        have hy := (h.kitties5 id1).2 hx
        rw [h51] at hy
        exact Bool.noConfusion hy
    rw [L4.do_breed_invalid1_l4 h41, L5.do_breed_invalid1 h51]
    exact h
  | some k1 =>
    rcases Option.isSome_iff_exists.1
      ((h.kitties4 id1).2 ((h.kitties5 id1).1 (by rw [h51]; rfl))) with ⟨g1, h41⟩
    cases h52 : s5.kitties id2 with
    | none =>
      have h42 : s4.kitties id2 = none := by
        cases h4o : s4.kitties id2 with
        | none => rfl
        | some g =>
          exfalso
          have hx := (h.kitties4 id2).1 (by rw [h4o]; rfl)
          have hy := (h.kitties5 id2).2 hx
          rw [h52] at hy
          exact Bool.noConfusion hy
      rw [L4.do_breed_invalid2_l4 h41 h42, L5.do_breed_invalid2 h51 h52]
      exact h
    | some k2 =>
      rcases Option.isSome_iff_exists.1
        ((h.kitties4 id2).2 ((h.kitties5 id2).1 (by rw [h52]; rfl))) with ⟨g2, h42⟩
      by_cases hne : id1 = id2
      · rw [L4.do_breed_same_l4 hne h41, L5.do_breed_same hne (by rw [h51]; rfl)]
        exact h
      · by_cases hov : s4.kittiesCount = maxK
        · rw [L4.do_breed_overflow_l4 h41 h42 hne hov,
            L5.do_breed_overflow maxK sender id1 id2 sel s5 k1 k2 h51 h52 hne
              (by rw [← h.count_eq]; exact hov)]
          exact h
        · have hlt : s4.kittiesCount < maxK := lt_of_le_of_ne h.count_le hov
          rw [L4.do_breed_ok_eq h41 h42 hne hov,
            L5.do_breed_eq maxK sender id1 id2 sel s5 k1 k2 h51 h52 hne
              (by rw [← h.count_eq]; exact hov),
            L5.insert_kitty_eq]
          exact simRel_insert maxK h hlt sender (combineGenome g1 g2 sel)
            ⟨combineGenome k1.dna k2.dna sel, 0⟩

theorem simRel_transfer (maxK : Nat) {s4 : L4.State} {s5 : L5.State}
    (h : SimRel maxK s4 s5) (sender toA : Account) (kitty_id : KittyId)
    (hst : sender ≠ toA) :
    SimRel maxK (L4.stepR maxK (GOp.transferOp sender toA kitty_id) s4)
      (L5.stepR maxK (L5.Op.transferOp sender toA kitty_id) s5) := by
  unfold L4.stepR L4.stepOp L5.stepR L5.stepOp
  dsimp only
  cases ho5 : s5.kittyOwner kitty_id with
  | none =>
    have ho4 : s4.kittyOwner kitty_id = none := by rw [h.owner_eq kitty_id, ho5]
    rw [L4.transfer_noOwner ho4, L5.do_transfer_noOwner ho5]
    exact h
  | some o =>
    have ho4 : s4.kittyOwner kitty_id = some o := by rw [h.owner_eq kitty_id, ho5]
    by_cases hos : o = sender
    · subst hos
      have hid : kitty_id < s4.kittiesCount :=
        (h.owner_dom kitty_id).1 (by rw [ho4]; rfl)
      have hcf1 : 1 ≤ s4.ownedCount o := by
        rw [h.counts o]
        exact ownerCount_pos _ _ hid ho4
      have hcf : s4.ownedCount o ≠ 0 := by omega
      have hst2 : o ≠ toA := hst
      have hsum := ownerCount_add_le s4.kittyOwner s4.kittiesCount o toA hst2
      have hle := h.count_le
      have hct : ¬ maxK < s4.ownedCount toA + 1 := by
        rw [h.counts toA]
        rw [h.counts o] at hcf1
        omega
      rw [L4.transfer_owner ho4, L4.do_transfer_ok_eq hcf hct,
        L5.do_transfer_owner_eq ho5]
      constructor
      · exact h.count_eq
      · exact h.count_le
      · intro id
        show (if id = kitty_id then some toA else s4.kittyOwner id)
            = (if id = kitty_id then some toA else s5.kittyOwner id)
        by_cases hidk : id = kitty_id
        · rw [if_pos hidk, if_pos hidk]
        · rw [if_neg hidk, if_neg hidk, h.owner_eq id]
      · exact h.kitties4
      · exact h.kitties5
      · intro id
        show (if id = kitty_id then some toA else s4.kittyOwner id).isSome
            ↔ id < s4.kittiesCount
        by_cases hidk : id = kitty_id
        · rw [if_pos hidk]
          constructor
          · intro hh
            rw [hidk]
            exact hid
          · intro hh
            rfl
        · rw [if_neg hidk]
          exact h.owner_dom id
      · intro a
        show (if a = toA then s4.ownedCount toA + 1
              else if a = o then s4.ownedCount o - 1
              else s4.ownedCount a)
            = ownerCount (fun k => if k = kitty_id then some toA else s4.kittyOwner k)
                s4.kittiesCount a
        rw [ownerCount_update s4.kittyOwner s4.kittiesCount kitty_id o toA a
          hid ho4 hst2]
        by_cases hat : a = toA
        · rw [if_pos hat, if_pos hat, h.counts toA, hat]
        · rw [if_neg hat, if_neg hat]
          by_cases has : a = o
          · rw [if_pos has, if_pos has, h.counts o, has]
          · rw [if_neg has, if_neg has, h.counts a]
    · rw [L4.transfer_notOwner ho4 hos, L5.do_transfer_notOwner ho5 hos]
      exact h

theorem simRel_run (maxK : Nat) : ∀ (ops : List GOp) (s4 : L4.State) (s5 : L5.State),
    SimRel maxK s4 s5 → noSelfTransfer ops = true →
    SimRel maxK (L4.run maxK s4 ops) (L5.run maxK s5 (ops.map GOp.toOp5)) := by
  intro ops
  induction ops with
  | nil =>
    intro s4 s5 h _
    exact h
  | cons op rest ih =>
    intro s4 s5 h hns
    cases op with
    | createOp sender dna =>
      rw [List.map_cons]
      show SimRel maxK (L4.run maxK (L4.stepR maxK (GOp.createOp sender dna) s4) rest)
        (L5.run maxK (L5.stepR maxK (L5.Op.createOp sender dna) s5) (rest.map GOp.toOp5))
      exact ih _ _ (simRel_create maxK h sender dna) hns
    | breedOp sender id1 id2 sel =>
      rw [List.map_cons]
      show SimRel maxK
        (L4.run maxK (L4.stepR maxK (GOp.breedOp sender id1 id2 sel) s4) rest)
        (L5.run maxK (L5.stepR maxK (L5.Op.breedOp sender id1 id2 sel) s5)
          (rest.map GOp.toOp5))
      exact ih _ _ (simRel_breed maxK h sender id1 id2 sel) hns
    | transferOp sender toA id =>
      rw [List.map_cons]
      have hns2 : (decide (sender ≠ toA) && noSelfTransfer rest) = true := hns
      rw [Bool.and_eq_true] at hns2
      have hst : sender ≠ toA := of_decide_eq_true hns2.1
      show SimRel maxK
        (L4.run maxK (L4.stepR maxK (GOp.transferOp sender toA id) s4) rest)
        (L5.run maxK (L5.stepR maxK (L5.Op.transferOp sender toA id) s5)
          (rest.map GOp.toOp5))
      exact ih _ _ (simRel_transfer maxK h sender toA id hst) hns2.2

section ClaimC10

/-- Claim C10 (amended): starting from the initial states and executing
the same sequence of create / breed / transfer operations with identical
random values, the lesson-4 (dense array, swap-with-last) and lesson-5
(intrusive doubly linked list) implementations agree on `owner_of(id)`
for every asset id after the sequence, provided no transfer has equal
sender and recipient. -/
theorem lesson4_lesson5_owner_agree (maxK : Nat) (ops : List GOp)
    (hns : noSelfTransfer ops = true) (id : KittyId) :
    (L4.run maxK L4.init ops).kittyOwner id =
      (L5.runG maxK L5.init ops).kittyOwner id :=
  (simRel_run maxK ops L4.init L5.init (simRel_init maxK) hns).owner_eq id

/-- Concrete instantiation of `lesson4_lesson5_owner_agree`. -/
theorem lesson4_lesson5_owner_agree_witness :
    noSelfTransfer [GOp.createOp 0 (fun _ => 0), GOp.transferOp 0 1 0] = true ∧
    (L4.run 3 L4.init [GOp.createOp 0 (fun _ => 0), GOp.transferOp 0 1 0]).kittyOwner 0 =
      (L5.runG 3 L5.init
        [GOp.createOp 0 (fun _ => 0), GOp.transferOp 0 1 0]).kittyOwner 0 :=
  ⟨rfl, lesson4_lesson5_owner_agree 3
    [GOp.createOp 0 (fun _ => 0), GOp.transferOp 0 1 0] rfl 0⟩

/-- Four operations with `KittyIndex::max_value() = 2`: create a kitty for
account 0, self-transfer it (inflating lesson-4's per-account counter to
2), create a kitty for account 1, then transfer it from 1 to 0. -/
def c10ops : List GOp :=
  [GOp.createOp 0 (fun _ => 0), GOp.transferOp 0 0 0,
   GOp.createOp 1 (fun _ => 0), GOp.transferOp 1 0 1]

/-- Claim C10, as stated, is false: after `c10ops` the lesson-4
implementation rejects the final transfer with a spurious counter
overflow (caused by the preceding self-transfer), so it still reports
account 1 as the owner of kitty 1, while lesson-5 reports account 0. -/
theorem lesson4_lesson5_owner_counterexample :
    (L4.run 2 L4.init c10ops).kittyOwner 1 = some 1 ∧
    (L5.runG 2 L5.init c10ops).kittyOwner 1 = some 0 ∧
    (L4.run 2 L4.init c10ops).kittyOwner 1 ≠ (L5.runG 2 L5.init c10ops).kittyOwner 1 := by
  refine ⟨?_, ?_, ?_⟩ <;> decide

end ClaimC10
